import Mathlib

/-!
# portal: push / pull of work-in-progress through a disposable branch

A shallow embedding of `main.go` and of the library functions it calls
(`strings`, `sort`, `unicode/utf8`, `golang.org/x/mod/semver`), followed by
the properties of the branch naming, the boundary commit resolution and the
two workflows.

A Go string is modelled by its sequence of runes, `List Char`: the texts in
play are command lines and the textual output of git.
-/

namespace Portal

/-- A Go string, as the list of its runes. -/
abbrev Str := List Char

/-! ## Library functions: `strings`, `sort`, `unicode/utf8` -/

/-- Go's `a < b` on strings: lexicographic comparison, a proper initial
segment being smaller. -/
def strLt : Str → Str → Bool
  | [], [] => false
  | [], _ :: _ => true
  | _ :: _, [] => false
  | a :: as, b :: bs =>
    if a.toNat < b.toNat then true
    else if b.toNat < a.toNat then false
    else strLt as bs

/-- The order `sort.Strings` sorts by: `a` may stand before `b` when `b < a` is false. -/
def StrLe (a b : Str) : Prop := strLt b a = false

instance : DecidableRel StrLe := fun a b => inferInstanceAs (Decidable (strLt b a = false))

/-- The function `sort.Strings`: the strings in increasing order. -/
def sortStrings (xs : List Str) : List Str := List.insertionSort StrLe xs

/-- The function `strings.TrimSuffix(s, suffix)`: `s` without the trailing `suffix`, when it ends in it. -/
def TrimSuffix (s suffix : Str) : Str :=
  if suffix.isSuffixOf s then s.take (s.length - suffix.length) else s

/-- The function `strings.Join(elems, sep)`. -/
def Join : List Str → Str → Str
  | [], _ => []
  | [x], _ => x
  | x :: y :: rest, sep => x ++ sep ++ Join (y :: rest) sep

/-- The function `strings.Split(s, sep)` for a separator of one rune (the source splits on `"+"`):
the pieces between the separators, `[""]` for the empty string. -/
def Split (s : Str) (sep : Char) : List Str :=
  match s with
  | [] => [[]]
  | c :: cs =>
    if c = sep then [] :: Split cs sep
    else
      match Split cs sep with
      | [] => [[c]]
      | piece :: pieces => (c :: piece) :: pieces

/-- The loop of `strings.FieldsFunc`: `cur` holds, reversed, the runes of the field
being read (`start >= 0` in the source exactly when a field is open). -/
def fieldsLoop (f : Char → Bool) (isOpen : Bool) (cur : Str) : Str → List Str
  | [] => if isOpen then [cur.reverse] else []
  | c :: cs =>
    if f c then
      if isOpen then cur.reverse :: fieldsLoop f false [] cs
      else fieldsLoop f false [] cs
    else
      fieldsLoop f true (c :: cur) cs

/-- The function `strings.FieldsFunc(s, f)`: the maximal runs of runes not satisfying `f`. -/
def FieldsFunc (s : Str) (f : Char → Bool) : List Str := fieldsLoop f false [] s

/-- The number of occurrences of one rune, as `strings.Count(s, "\n")` counts newlines. -/
def Count (s : Str) (c : Char) : Nat := s.count c

/-- The function `strings.Contains(s, substr)`. -/
def Contains (s substr : Str) : Bool :=
  match s with
  | [] => substr.isEmpty
  | c :: cs => substr.isPrefixOf (c :: cs) || Contains cs substr

/-- The size returned by `utf8.DecodeRuneInString`, counted in runes: 0 for the
empty string, otherwise one rune. -/
def decodeRuneSize : Str → Nat
  | [] => 0
  | _ :: _ => 1

/-! ## `main.go`: branch naming -/

/-- The function `trimFirstRune`: `s[i:]` for the size `i` of the first rune. -/
def trimFirstRune (s : Str) : Str := s.drop (decodeRuneSize s)

/-- The function `Map`. -/
def Map (vs : List Str) (f : Str → Str) : List Str := vs.map f

/-- The function `portal`. -/
def portal (branchName : Str) : Str := "portal-".toList ++ branchName

/-- The function `getPortalBranch`: sort, then drop one trailing newline of each author, join, name. -/
def getPortalBranch (authors : List Str) : Str :=
  let authors := sortStrings authors
  let authors := Map authors (fun s => TrimSuffix s "\n".toList)
  let branch := Join authors "-".toList
  portal branch

/-- The function `empty`. -/
def empty (xs : List Str) : Bool := xs.length == 0

/-- The function `nonEmpty`. -/
def nonEmpty (xs : List Str) : Bool := xs.length != 0

/-- The function `all`. -/
def all (xxs : List (List Str)) (f : List Str → Bool) : Bool :=
  match xxs with
  | [] => true
  | xs :: rest => if f xs == false then false else all rest f

/-- The loop of `many`, with its flag `seen`. -/
def manyLoop (f : List Str → Bool) (seen : Bool) : List (List Str) → Bool
  | [] => false
  | xs :: rest =>
    if seen && f xs then true
    else if f xs then manyLoop f true rest
    else manyLoop f seen rest

/-- The function `many`. -/
def many (xxs : List (List Str)) (f : List Str → Bool) : Bool := manyLoop f false xxs

/-- The function `findFirst`; the `nil` slice is the empty list. -/
def findFirst (xxs : List (List Str)) (f : List Str → Bool) : List Str :=
  match xxs with
  | [] => []
  | xs :: rest => if f xs == true then xs else findFirst rest f

/-- The error of `branchNameStrategy` when no provider is configured. -/
def errNoStrategy : Str := "no branch naming strategy found".toList

/-- The error of `branchNameStrategy` when several providers are configured. -/
def errMultipleStrategies : Str := "multiple branch naming strategies found".toList

/-- The body of `branchNameStrategy` once `pairs` holds the providers' results. -/
def selectStrategy (pairs : List (List Str)) : Except Str (List Str) :=
  if all pairs empty then .error errNoStrategy
  else if many pairs nonEmpty then .error errMultipleStrategies
  else .ok (findFirst pairs nonEmpty)

/-! ## Library functions: `golang.org/x/mod/semver` -/

/-- The record `parsed` of package semver. -/
structure Parsed where
  major : Str
  minor : Str
  patch : Str
  short : Str
  prerelease : Str
  build : Str
  deriving DecidableEq, Repr

/-- A decimal digit, `'0' <= c && c <= '9'`. -/
def isDigit (c : Char) : Bool := decide ('0'.toNat ≤ c.toNat) && decide (c.toNat ≤ '9'.toNat)

/-- The function `isIdentChar` of package semver. -/
def isIdentChar (c : Char) : Bool :=
  (decide ('A'.toNat ≤ c.toNat) && decide (c.toNat ≤ 'Z'.toNat))
    || (decide ('a'.toNat ≤ c.toNat) && decide (c.toNat ≤ 'z'.toNat))
    || (decide ('0'.toNat ≤ c.toNat) && decide (c.toNat ≤ '9'.toNat))
    || c == '-'

/-- The function `parseInt` of package semver: the leading digits and the rest; no leading zero. -/
def parseInt (v : Str) : Option (Str × Str) :=
  match v with
  | [] => none
  | c :: cs =>
    if !isDigit c then none
    else
      let t := c :: cs.takeWhile isDigit
      if c == '0' && t.length != 1 then none
      else some (t, cs.dropWhile isDigit)

/-- The function `isBadNum` of package semver: all digits, more than one, the first a zero. -/
def isBadNum (v : Str) : Bool :=
  v.all isDigit && decide (1 < v.length) && v.head? == some '0'

/-- The loop of `parsePrerelease`; `cur` is the identifier being read, `v[start:i]`.
Returns the runes read and the rest. -/
def prereleaseLoop (cur : Str) : Str → Option (Str × Str)
  | [] => if cur.isEmpty || isBadNum cur then none else some ([], [])
  | c :: cs =>
    if c == '+' then
      if cur.isEmpty || isBadNum cur then none else some ([], c :: cs)
    else if !isIdentChar c && c != '.' then none
    else if c == '.' then
      if cur.isEmpty || isBadNum cur then none
      else (prereleaseLoop [] cs).map (fun p => (c :: p.1, p.2))
    else (prereleaseLoop (cur ++ [c]) cs).map (fun p => (c :: p.1, p.2))

/-- The function `parsePrerelease` of package semver. -/
def parsePrerelease (v : Str) : Option (Str × Str) :=
  match v with
  | [] => none
  | c :: cs =>
    if c != '-' then none
    else (prereleaseLoop [] cs).map (fun p => (c :: p.1, p.2))

/-- The loop of `parseBuild`; `cur` is the identifier being read. -/
def buildLoop (cur : Str) : Str → Option (Str × Str)
  | [] => if cur.isEmpty then none else some ([], [])
  | c :: cs =>
    if !isIdentChar c && c != '.' then none
    else if c == '.' then
      if cur.isEmpty then none
      else (buildLoop [] cs).map (fun p => (c :: p.1, p.2))
    else (buildLoop (cur ++ [c]) cs).map (fun p => (c :: p.1, p.2))

/-- The function `parseBuild` of package semver. -/
def parseBuild (v : Str) : Option (Str × Str) :=
  match v with
  | [] => none
  | c :: cs =>
    if c != '+' then none
    else (buildLoop [] cs).map (fun p => (c :: p.1, p.2))

/-- The end of `parse`, after the patch number: optional prerelease, optional build,
then nothing. -/
def parseTail (major minor patch : Str) (v : Str) : Option Parsed :=
  let pre : Option (Str × Str) :=
    match v with
    | '-' :: _ => parsePrerelease v
    | _ => some ([], v)
  match pre with
  | none => none
  | some (prerelease, v) =>
    let bld : Option (Str × Str) :=
      match v with
      | '+' :: _ => parseBuild v
      | _ => some ([], v)
    match bld with
    | none => none
    | some (build, v) =>
      if v != [] then none
      else some ⟨major, minor, patch, [], prerelease, build⟩

/-- The function `parse` of package semver: `vMAJOR[.MINOR[.PATCH[-PRERELEASE][+BUILD]]]`. -/
def parse (v : Str) : Option Parsed :=
  match v with
  | [] => none
  | c :: v =>
    if c != 'v' then none
    else
      match parseInt v with
      | none => none
      | some (major, v) =>
        match v with
        | [] => some ⟨major, "0".toList, "0".toList, ".0.0".toList, [], []⟩
        | d :: v =>
          if d != '.' then none
          else
            match parseInt v with
            | none => none
            | some (minor, v) =>
              match v with
              | [] => some ⟨major, minor, "0".toList, ".0".toList, [], []⟩
              | e :: v =>
                if e != '.' then none
                else
                  match parseInt v with
                  | none => none
                  | some (patch, v) => parseTail major minor patch v

/-- The function `semver.Canonical`: the empty string for an invalid version, otherwise the version
without build metadata and with the missing `.MINOR` and `.PATCH` filled in. -/
def Canonical (v : Str) : Str :=
  match parse v with
  | none => []
  | some p =>
    if p.build != [] then v.take (v.length - p.build.length)
    else if p.short != [] then v ++ p.short
    else v

/-- The function `semver.Major`: the major version prefix (`"v2"` for `"v2.1.0"`), the empty string
for an invalid version. -/
def Major (v : Str) : Str :=
  match parse v with
  | none => []
  | some pv => v.take (1 + pv.major.length)

/-! ## `main.go`: commands, the world they run in, and the workflows -/

/-- What `execute` returns: the combined output and whether `err != nil`. -/
structure Resp where
  out : Str
  err : Bool
  deriving DecidableEq, Repr

/-- The record `config.Meta`. -/
structure Config where
  version : Str
  workingBranch : Str
  sha : Str
  deriving DecidableEq, Repr

/-- Everything outside the program: the result of the `k`-th call of `execute` (given
the command line), what `getConfiguration` unmarshals from `portal-meta.yml` (`none`
when `yaml.Unmarshal` fails), the clock, the package variable `version` and the
`--verbose` flag. -/
structure World where
  resp : Nat → Str → Resp
  config : Option Config
  now : Str
  version : Str
  verbose : Bool

/-- A file written by the program. -/
inductive FileWrite where
  | patch (name : Str) (content : Str)
  | meta (c : Config)
  deriving DecidableEq, Repr

/-- What the program has done so far: the command lines passed to `execute`, in
order; the lines printed on standard output; the files written. -/
structure St where
  trace : List Str
  out : List Str
  files : List FileWrite
  deriving DecidableEq, Repr

/-- The state at program start. -/
def St.init : St := ⟨[], [], []⟩

/-- How a run stops early: `os.Exit(code)` or a runtime panic. -/
inductive Halt where
  | exit (code : Nat)
  | panic
  deriving DecidableEq, Repr

/-- The result of running a piece of the program from a state. -/
inductive Res (α : Type) where
  | ok (a : α) (s : St)
  | halt (h : Halt) (s : St)
  deriving DecidableEq

/-- A piece of the program: a state transformer that may stop the process. -/
def M (α : Type) : Type := St → Res α

/-- Sequencing: a halted run skips what follows. -/
def M.bind {α β : Type} (m : M α) (f : α → M β) : M β := fun s =>
  match m s with
  | .ok a s1 => f a s1
  | .halt h s1 => .halt h s1

/-- Return a value without effect. -/
def M.pure {α : Type} (a : α) : M α := fun s => .ok a s

instance : Monad M where
  pure := M.pure
  bind := M.bind

/-- The state a run ends in. -/
def Res.state {α : Type} : Res α → St
  | .ok _ s => s
  | .halt _ s => s

/-- The value a run returns, when it returns. -/
def Res.value {α : Type} : Res α → Option α
  | .ok a _ => some a
  | .halt _ _ => none

/-- The exit status of a finished run of a whole workflow: 0 on return, the argument of
`os.Exit`, 2 for a panic (the status of the Go runtime). -/
def Res.exitCode {α : Type} : Res α → Nat
  | .ok _ _ => 0
  | .halt (.exit c) _ => c
  | .halt .panic _ => 2

/-- The function `execute(command)`: run the command line, get the combined output and the error. -/
def execute (w : World) (command : Str) : M Resp := fun s =>
  .ok (w.resp s.trace.length command) { s with trace := s.trace ++ [command] }

/-- The function `fmt.Println(line)`. -/
def println (line : Str) : M Unit := fun s => .ok () { s with out := s.out ++ [line] }

/-- The function `os.Exit(code)`. -/
def osExit {α : Type} (code : Nat) : M α := fun s => .halt (.exit code) s

/-- A runtime panic. -/
def goPanic {α : Type} : M α := fun s => .halt .panic s

/-- Record a written file; `os.Create` and `WriteString` are taken to succeed (in the
source their failure is printed or dropped and changes no command). -/
def writeFile (f : FileWrite) : M Unit := fun s => .ok () { s with files := s.files ++ [f] }

/-- The function `commandFailure`: print the command (the error goes to standard error) and exit 1. -/
def commandFailure {α : Type} (command : Str) : M α := do
  println command
  osExit 1

/-- The function `parseRefBoundary`; `none` is the index-out-of-range panic of
`boundaries[len(boundaries)-1]` on an empty slice. -/
def parseRefBoundary (revisionBoundaries : Str) : Option Str :=
  let boundaries := FieldsFunc revisionBoundaries (fun c => c == '\n')
  match boundaries.getLast? with
  | some b => some (trimFirstRune b)
  | none => none

/-- The command line of the boundary revision list. -/
def cmdRevList (remoteTrackingBranch currentBranch : Str) : Str :=
  "git rev-list --boundary ".toList ++ remoteTrackingBranch ++ "..".toList ++ currentBranch

/-- The function `getBoundarySha`. -/
def getBoundarySha (w : World) (remoteTrackingBranch currentBranch : Str) : M Str := do
  let r ← execute w (cmdRevList remoteTrackingBranch currentBranch)
  if r.out.length > 0 then
    match parseRefBoundary r.out with
    | some sha => pure sha
    | none => goPanic
  else
    let r2 ← execute w ("git rev-parse ".toList ++ currentBranch)
    pure (TrimSuffix r2.out "\n".toList)

/-- The command line asking for the upstream of the current branch. -/
def cmdUpstream : Str := "git rev-parse --abbrev-ref --symbolic-full-name @\x7bu\x7d".toList

/-- The function `currentBranchRemotelyUntracked`. -/
def currentBranchRemotelyUntracked (w : World) : M Bool := do
  let r ← execute w cmdUpstream
  pure r.err

/-- The function `getConfiguration`: a failure of `yaml.Unmarshal` is fatal (`log.Fatalf`). -/
def getConfiguration (w : World) : M Config :=
  match w.config with
  | some c => pure c
  | none => osExit 1

/-- The function `writePortalMetaData`. -/
def writePortalMetaData (branch sha version : Str) : M Unit :=
  writeFile (.meta ⟨version, branch, sha⟩)

/-- The function `getCurrentBranch`. -/
def getCurrentBranch (w : World) : M Str := do
  let r ← execute w "git rev-parse --abbrev-ref HEAD".toList
  pure (TrimSuffix r.out "\n".toList)

/-- The function `getRemoteTrackingBranch`. -/
def getRemoteTrackingBranch (w : World) : M Str := do
  let r ← execute w cmdUpstream
  pure (TrimSuffix r.out "\n".toList)

/-- The function `buildPatchFileName`. -/
def buildPatchFileName (dateTime : Str) : Str := "portal-".toList ++ dateTime ++ ".patch".toList

/-- The function `savePatch`. -/
def savePatch (w : World) (remoteTrackingBranch dateTime : Str) : M Unit := do
  let r ← execute w ("git format-patch ".toList ++ remoteTrackingBranch ++ " --stdout".toList)
  writeFile (.patch (buildPatchFileName dateTime) r.out)

/-- The lookup of the git-duet author. -/
def cmdDuetAuthor : Str := "git config --get duet.env.git-author-initials".toList

/-- The lookup of the git-duet committer. -/
def cmdDuetCommitter : Str := "git config --get duet.env.git-committer-initials".toList

/-- The lookup of the git-together authors. -/
def cmdTogether : Str := "git config --get git-together.active".toList

/-- The function `gitDuet`. -/
def gitDuet (w : World) : M (List Str) := do
  let author ← execute w cmdDuetAuthor
  let coauthor ← execute w cmdDuetCommitter
  if author.err && coauthor.err then pure []
  else pure [author.out, coauthor.out]

/-- The function `gitTogether`. -/
def gitTogether (w : World) : M (List Str) := do
  let activeAuthors ← execute w cmdTogether
  if activeAuthors.err then pure []
  else pure (Split activeAuthors.out '+')

/-- The function `branchNameStrategy`. -/
def branchNameStrategy (w : World) : M (Except Str (List Str)) := do
  let duet ← gitDuet w
  let together ← gitTogether w
  pure (selectStrategy [duet, together])

/-- The statement `if cond { body }`: run `body` when `cond` holds, then go on. -/
def whenM (cond : Bool) (body : M Unit) : M Unit :=
  if cond then body else pure ()

/-- The function `localBranchExists`. -/
def localBranchExists (w : World) (branch : Str) : M Bool := do
  let command := "git branch --list ".toList ++ branch
  let r ← execute w command
  whenM r.err (commandFailure command)
  pure (decide (r.out.length > 0))

/-- The function `remoteBranchExists`. -/
def remoteBranchExists (w : World) (branch : Str) : M Bool := do
  let command := "git ls-remote --heads origin ".toList ++ branch
  let r ← execute w command
  whenM r.err (commandFailure command)
  pure (decide (r.out.length > 0))

/-- The function `dirtyIndex`. -/
def dirtyIndex (w : World) : M Bool := do
  let command := "git status --porcelain=v1".toList
  let r ← execute w command
  whenM r.err (commandFailure command)
  let indexCount := Count r.out '\n'
  pure (decide (indexCount > 0))

/-- The function `unpublishedWork`. -/
def unpublishedWork (w : World) : M Bool := do
  let command := "git status -sb".toList
  let r ← execute w command
  whenM r.err (commandFailure command)
  pure (Contains r.out "ahead".toList)

/-- The function `run`. -/
def run (w : World) (commands : List Str) (verbose : Bool) : M Unit :=
  match commands with
  | [] => pure ()
  | command :: rest => do
    whenM (verbose == true) (println command)
    let r ← execute w command
    whenM r.err (commandFailure command)
    whenM (verbose == true) (println r.out)
    run w rest verbose

/-- The function `runner`; the spinner of `style` has no effect on commands or output lines. -/
def runner (w : World) (commands : List Str) (verbose : Bool) (completionMessage : Str) :
    M Unit := do
  run w commands verbose
  println completionMessage

/-- The four lines printed when the major versions differ. -/
def versionMismatchLines : List Str :=
  ["Pusher and Puller are using different versions of portal".toList,
   "  1. Pusher run portal pull to retrieve changes.".toList,
   "  2. Both pairs update to latest version of portal.".toList,
   "\nThen try again...".toList]

/-- The line printed when the starting branch is not the recorded working branch. -/
def branchMismatchLine (startingBranch workingBranch : Str) : Str :=
  "Starting branch ".toList ++ startingBranch ++ " did not match target branch ".toList
    ++ workingBranch

/-- The commands the push hands to `runner`. -/
def pushCommands (now portalBranch currentBranch remoteTrackingBranch : Str) : List Str :=
  ["git stash save \"portal-patch-".toList ++ now ++ "\" --include-untracked".toList,
   "git checkout -b ".toList ++ portalBranch ++ " --progress".toList,
   "git push origin ".toList ++ portalBranch ++ " --progress".toList,
   "git checkout ".toList ++ currentBranch ++ " --progress".toList,
   "git branch -D ".toList ++ portalBranch,
   "git reset --hard ".toList ++ remoteTrackingBranch]

/-- The branch naming strategy of a workflow, or the exit on its error. -/
def strategyOrExit (w : World) : M (List Str) := do
  let strategy ← branchNameStrategy w
  match strategy with
  | .error err => do
    println ("Error: ".toList ++ err)
    osExit 1
  | .ok branchStrategy => pure branchStrategy

/-- The test `!dirtyIndex() && !unpublishedWork()` of the push; `&&` does not evaluate
its right side when the left side is false. -/
def nothingToPush (w : World) : M Bool := do
  let dirty ← dirtyIndex w
  if !dirty then do
    let unpublished ← unpublishedWork w
    pure (!unpublished)
  else pure false

/-- The test `dirtyIndex() || unpublishedWork()` of the pull; `||` does not evaluate
its right side when the left side is true. -/
def notClean (w : World) : M Bool := do
  let dirty ← dirtyIndex w
  if dirty then pure true
  else unpublishedWork w

/-- The action of the `push` command. -/
def push (w : World) : M Unit := do
  let verbose := w.verbose
  let nothing ← nothingToPush w
  whenM nothing (do
    println "nothing to push!".toList
    osExit 1)
  let untracked ← currentBranchRemotelyUntracked w
  whenM untracked (do
    println "Only branches with remote tracking are pushable".toList
    osExit 1)
  let branchStrategy ← strategyOrExit w
  let portalBranch := getPortalBranch branchStrategy
  let localExists ← localBranchExists w portalBranch
  whenM localExists (do
    println ("local branch ".toList ++ portalBranch ++ " already exists".toList)
    osExit 1)
  let remoteExists ← remoteBranchExists w portalBranch
  whenM remoteExists (do
    println ("remote branch ".toList ++ portalBranch ++ " already exists".toList)
    osExit 1)
  let currentBranch ← getCurrentBranch w
  let remoteTrackingBranch ← getRemoteTrackingBranch w
  let sha ← getBoundarySha w remoteTrackingBranch currentBranch
  let _ ← execute w "git add .".toList
  let _ ← execute w "git commit --allow-empty -m portal-wip".toList
  let now := w.now
  savePatch w remoteTrackingBranch now
  writePortalMetaData currentBranch sha w.version
  let _ ← execute w "git add portal-meta.yml".toList
  let _ ← execute w "git commit --allow-empty -m portal-meta".toList
  let commands := pushCommands now portalBranch currentBranch remoteTrackingBranch
  runner w commands verbose "✨ Sent!".toList

/-- What the pull knows when it reaches its validation: the branch it started on, the
portal branch, and the fields read from the metadata next to the tool's own version. -/
structure PullCtx where
  startingBranch : Str
  portalBranch : Str
  workingBranch : Str
  pusherVersion : Str
  sha : Str
  currentVersion : Str
  deriving DecidableEq, Repr

/-- The action of the `pull` command up to the deletion of the local metadata file
(lines 106 to 143): preconditions, fetch, metadata reading. -/
def pullFetch (w : World) : M PullCtx := do
  let untracked ← currentBranchRemotelyUntracked w
  whenM untracked (do
    println "Must be on a branch that is remotely tracked.".toList
    osExit 1)
  let startingBranch ← getCurrentBranch w
  let unclean ← notClean w
  whenM unclean (do
    println (startingBranch ++ ": git index dirty!".toList)
    osExit 1)
  let branchStrategy ← strategyOrExit w
  let portalBranch := getPortalBranch branchStrategy
  let remoteExists ← remoteBranchExists w portalBranch
  whenM (!remoteExists) (do
    println "nothing to pull!".toList
    osExit 1)
  let _ ← execute w "git fetch".toList
  let _ ← execute w "git pull -r".toList
  let _ ← execute w
    ("git checkout origin/".toList ++ portalBranch ++ " -- portal-meta.yml".toList)
  let config ← getConfiguration w
  let workingBranch := config.workingBranch
  let pusherVersion := Canonical config.version
  let sha := config.sha
  let currentVersion := Canonical w.version
  let _ ← execute w "rm portal-meta.yml".toList
  pure ⟨startingBranch, portalBranch, workingBranch, pusherVersion, sha, currentVersion⟩

/-- The commands of the replay and of the cleanup of a pull. -/
def replayCommands (c : PullCtx) : List Str :=
  ["git reset --hard ".toList ++ c.sha,
   "git rebase origin/".toList ++ c.portalBranch,
   "git reset HEAD^^".toList,
   "rm portal-meta.yml".toList,
   "git push origin --delete ".toList ++ c.portalBranch]

/-- The action of the `pull` command from its validation on (lines 145 to 168): version
gate, branch check, replay, cleanup. -/
def pullReplay (w : World) (c : PullCtx) : M Unit := do
  let verbose := w.verbose
  whenM (Major c.pusherVersion != Major c.currentVersion) (do
    println "Pusher and Puller are using different versions of portal".toList
    println "  1. Pusher run portal pull to retrieve changes.".toList
    println "  2. Both pairs update to latest version of portal.".toList
    println "\nThen try again...".toList
    osExit 1)
  whenM (c.workingBranch != c.startingBranch) (do
    println (branchMismatchLine c.startingBranch c.workingBranch)
    osExit 1)
  let _ ← execute w ("git reset --hard ".toList ++ c.sha)
  let _ ← execute w ("git rebase origin/".toList ++ c.portalBranch)
  let _ ← execute w "git reset HEAD^^".toList
  let _ ← execute w "rm portal-meta.yml".toList
  let _ ← execute w ("git push origin --delete ".toList ++ c.portalBranch)
  let commands := ["echo done".toList]
  runner w commands verbose "✨ Got it!".toList

/-- The action of the `pull` command. -/
def pull (w : World) : M Unit := do
  let c ← pullFetch w
  pullReplay w c

/-- A command line that starts with `git reset` or `git rebase`. -/
def isResetOrRebase (command : Str) : Bool :=
  "git reset".toList.isPrefixOf command || "git rebase".toList.isPrefixOf command

/-- A command line that starts with one of the given texts. -/
def startsWithAny (heads : List Str) (command : Str) : Bool :=
  heads.any (fun h => h.isPrefixOf command)

/-- The commands of the push whose error is fatal: the queries `git status`,
`git branch --list` and `git ls-remote`, which call `commandFailure`, and the six
commands handed to `run`. -/
def pushChecked (command : Str) : Bool :=
  startsWithAny ["git status".toList, "git branch".toList, "git ls-remote".toList,
    "git stash".toList, "git checkout".toList, "git push".toList, "git reset".toList] command

/-- The commands of the pull whose error is fatal: the queries `git status` and
`git ls-remote`, which call `commandFailure`, and `echo done`, handed to `run`. -/
def pullChecked (command : Str) : Bool :=
  startsWithAny ["git status".toList, "git ls-remote".toList, "echo done".toList] command

/-! ## Reference definitions, following the specification's words -/

/-- The branch name as the specification words it: trim each token, sort, join with
`-`, put `portal-` in front. -/
def derivePortalBranchName (tokens : List Str) : Str :=
  "portal-".toList ++ Join (sortStrings (tokens.map (fun s => TrimSuffix s "\n".toList))) "-".toList

/-- The non-empty lines of a text, in order. -/
def nonEmptyLines (text : Str) : List Str :=
  (Split text '\n').filter (fun line => !line.isEmpty)

/-- What the git-together provider prints for a list of active authors. -/
def togetherOutput (tokens : List Str) : Str := Join tokens "+".toList ++ "\n".toList

/-! ## Sample worlds -/

/-- A successful command with the given output. -/
def okOut (out : String) : Resp := ⟨out.toList, false⟩

/-- A failed command with empty output. -/
def failed : Resp := ⟨[], true⟩

/-- The world whose `k`-th command gets the `k`-th response of the list (a success with
empty output past its end). -/
def scripted (rs : List Resp) (config : Option Config) (version : String) : World :=
  { resp := fun k _ => rs.getD k ⟨[], false⟩
    config := config
    now := "2021-01-01T00:00:00Z".toList
    version := version.toList
    verbose := false }

/-- A pull of a pair `aa`, `bb` configured through git-duet, on branch `feature-x`, of
the given metadata and tool version. -/
def pullWorld (config : Option Config) (version : String) (currentBranch : String) : World :=
  scripted
    [okOut "origin/feature-x\n", okOut currentBranch, okOut "", okOut "## feature-x\n",
     okOut "aa\n", okOut "bb\n", failed, okOut "abc123\trefs/heads/portal-aa-bb\n"]
    config version

/-- The metadata of a push from branch `feature-x` at boundary `abc123` by a tool of the
given version. -/
def sampleConfig (version : String) : Config :=
  ⟨version.toList, "feature-x".toList, "abc123".toList⟩

/-- The commands a pull of `pullWorld` has run when it reaches its validation. -/
def fetchedTrace : List Str :=
  [cmdUpstream, "git rev-parse --abbrev-ref HEAD".toList, "git status --porcelain=v1".toList,
   "git status -sb".toList, cmdDuetAuthor, cmdDuetCommitter, cmdTogether,
   "git ls-remote --heads origin portal-aa-bb".toList, "git fetch".toList,
   "git pull -r".toList, "git checkout origin/portal-aa-bb -- portal-meta.yml".toList,
   "rm portal-meta.yml".toList]

/-- What a pull of `pullWorld (some (sampleConfig pusherVersion)) "v1.4.0"` knows when it
reaches its validation, started on the given branch. -/
def fetchedCtx (startingBranch pusherVersion : String) : PullCtx :=
  ⟨startingBranch.toList, "portal-aa-bb".toList, "feature-x".toList, pusherVersion.toList,
   "abc123".toList, "v1.4.0".toList⟩

/-- A push of a pair `aa`, `bb` configured through git-duet, on a dirty branch
`feature-x`; `later` holds the responses from `git add .`, the eleventh command, on. -/
def pushWorld (later : List Resp) : World :=
  scripted
    ([okOut " M main.go\n", okOut "origin/feature-x\n", okOut "aa\n", okOut "bb\n", failed,
      okOut "", okOut "", okOut "feature-x\n", okOut "origin/feature-x\n",
      okOut "c2\n-c1\n"] ++ later)
    none "v1.4.0"

/-- A pull of a pair `aa`, `bb` in which the query for the remote portal branch fails. -/
def pullWorldRemoteDown : World :=
  scripted
    [okOut "origin/feature-x\n", okOut "feature-x\n", okOut "", okOut "## feature-x\n",
     okOut "aa\n", okOut "bb\n", failed, failed]
    none "v1.4.0"

/-! ## A program logic for the workflows -/

/-- A text that does not start with a digit. -/
def NoDigitHead (r : Str) : Prop := ∀ c ∈ r.head?, isDigit c = false

/-- From a state satisfying `P`, the run of `m` either returns a value and a state
satisfying `Q` or halts in a way and a state satisfying `E`. -/
def Triple {α : Type} (P : St → Prop) (m : M α) (Q : α → St → Prop)
    (E : Halt → St → Prop) : Prop :=
  ∀ s, P s → match m s with
    | .ok a s1 => Q a s1
    | .halt h s1 => E h s1

/-- An invariant `I` of the trace of commands, the condition `E` in which a run may
halt, the commands `unchecked` admitted where the source discards their error and the
commands `checked` admitted where the source makes their error fatal. -/
structure Logic (w : World) where
  I : List Str → Prop
  E : Halt → St → Prop
  unchecked : Str → Prop
  checked : Str → Prop

/-- The precondition and postcondition of a step: the invariant holds of the trace. -/
def Logic.Pre {w : World} (L : Logic w) : St → Prop := fun s => L.I s.trace

/-- The laws of a logic: an exit 1 is admitted wherever the invariant holds; an
unchecked command keeps the invariant; a checked command keeps it when it succeeds and
admits the exit 1 that follows when it fails. -/
structure Logic.Sound {w : World} (L : Logic w) : Prop where
  exit_ok : ∀ s, L.I s.trace → L.E (.exit 1) s
  snoc_unchecked : ∀ tr cmd, L.I tr → L.unchecked cmd → L.I (tr ++ [cmd])
  snoc_ok : ∀ tr cmd, L.I tr → L.checked cmd → (w.resp tr.length cmd).err = false →
    L.I (tr ++ [cmd])
  snoc_err : ∀ tr cmd out files, L.I tr → L.checked cmd →
    (w.resp tr.length cmd).err = true → L.E (.exit 1) ⟨tr ++ [cmd], out, files⟩

/-- The side conditions of a logic for the commands that both workflows run before they
change anything: the queries on the branch, the index and the pair. -/
structure QuerySide {w : World} (L : Logic w) : Prop where
  upstream : L.unchecked cmdUpstream
  head : L.unchecked "git rev-parse --abbrev-ref HEAD".toList
  porcelain : L.checked "git status --porcelain=v1".toList
  statusSb : L.checked "git status -sb".toList
  duetAuthor : L.unchecked cmdDuetAuthor
  duetCommitter : L.unchecked cmdDuetCommitter
  together : L.unchecked cmdTogether
  lsRemote : ∀ b, L.checked ("git ls-remote --heads origin ".toList ++ b)

/-- The side conditions for the commands of the pull up to its validation. -/
structure FetchSide {w : World} (L : Logic w) extends QuerySide L : Prop where
  fetch : L.unchecked "git fetch".toList
  pullR : L.unchecked "git pull -r".toList
  checkoutMeta : ∀ b,
    L.unchecked ("git checkout origin/".toList ++ b ++ " -- portal-meta.yml".toList)
  rmMeta : L.unchecked "rm portal-meta.yml".toList

/-- The side conditions for the commands of the replay and cleanup of the pull. -/
structure ReplaySide {w : World} (L : Logic w) : Prop where
  resetHard : ∀ sha, L.unchecked ("git reset --hard ".toList ++ sha)
  rebase : ∀ b, L.unchecked ("git rebase origin/".toList ++ b)
  resetHead : L.unchecked "git reset HEAD^^".toList
  rmMeta : L.unchecked "rm portal-meta.yml".toList
  pushDelete : ∀ b, L.unchecked ("git push origin --delete ".toList ++ b)
  echoDone : L.checked "echo done".toList

/-- The side conditions for the commands of the push after its queries. -/
structure PushSide {w : World} (L : Logic w) extends QuerySide L : Prop where
  branchList : ∀ b, L.checked ("git branch --list ".toList ++ b)
  revList : ∀ r c, L.unchecked (cmdRevList r c)
  revParse : ∀ c, L.unchecked ("git rev-parse ".toList ++ c)
  panic_ok : ∀ s, L.I s.trace → L.E .panic s
  addAll : L.unchecked "git add .".toList
  commitWip : L.unchecked "git commit --allow-empty -m portal-wip".toList
  formatPatch : ∀ r, L.unchecked ("git format-patch ".toList ++ r ++ " --stdout".toList)
  addMeta : L.unchecked "git add portal-meta.yml".toList
  commitMeta : L.unchecked "git commit --allow-empty -m portal-meta".toList
  published : ∀ now pb cb rb, ∀ c ∈ pushCommands now pb cb rb, L.checked c

/-- The logic of "no `git reset`, no `git rebase` so far, and any exit is an exit 1". -/
def noResetLogic (w : World) : Logic w where
  I := fun tr => ∀ cmd ∈ tr, isResetOrRebase cmd = false
  E := fun h s => h = .exit 1 ∧ ∀ cmd ∈ s.trace, isResetOrRebase cmd = false
  unchecked := fun cmd => isResetOrRebase cmd = false
  checked := fun cmd => isResetOrRebase cmd = false

/-- No command of the trace recognised by `isChecked` has failed. -/
def NoCheckedFailure (w : World) (isChecked : Str → Bool) (tr : List Str) : Prop :=
  ∀ k cmd, tr[k]? = some cmd → (w.resp k cmd).err = true → isChecked cmd = false

/-- A failed command of the trace recognised by `isChecked` is the last one. -/
def CheckedFailureLast (w : World) (isChecked : Str → Bool) (tr : List Str) : Prop :=
  ∀ k cmd, tr[k]? = some cmd → (w.resp k cmd).err = true → isChecked cmd = true →
    k + 1 = tr.length

/-- The logic of "a failed command whose error is fatal is the last command run, and
the run ends by an exit 1". -/
def failureLogic (w : World) (isChecked : Str → Bool) : Logic w where
  I := NoCheckedFailure w isChecked
  E := fun h s => CheckedFailureLast w isChecked s.trace ∧
    (h = .exit 1 ∨ NoCheckedFailure w isChecked s.trace)
  unchecked := fun cmd => isChecked cmd = false
  checked := fun _ => True

/-! ## The declared sequences of commands -/

/-- The commands of the push in the order of the source. `clean` says that the index was
not dirty, so that `unpublishedWork` was asked as well; `diverged` says that the revision
list was not empty, so that the hash of the current branch was not asked for. -/
def pushSequence (clean diverged : Bool) (now portalBranch currentBranch
    remoteTrackingBranch : Str) : List Str :=
  ["git status --porcelain=v1".toList]
    ++ (if clean then ["git status -sb".toList] else [])
    ++ [cmdUpstream,
        cmdDuetAuthor,
        cmdDuetCommitter,
        cmdTogether,
        "git branch --list ".toList ++ portalBranch,
        "git ls-remote --heads origin ".toList ++ portalBranch,
        "git rev-parse --abbrev-ref HEAD".toList,
        cmdUpstream,
        cmdRevList remoteTrackingBranch currentBranch]
    ++ (if diverged then [] else ["git rev-parse ".toList ++ currentBranch])
    ++ ["git add .".toList,
        "git commit --allow-empty -m portal-wip".toList,
        "git format-patch ".toList ++ remoteTrackingBranch ++ " --stdout".toList,
        "git add portal-meta.yml".toList,
        "git commit --allow-empty -m portal-meta".toList,
        "git stash save \"portal-patch-".toList ++ now ++ "\" --include-untracked".toList,
        "git checkout -b ".toList ++ portalBranch ++ " --progress".toList,
        "git push origin ".toList ++ portalBranch ++ " --progress".toList,
        "git checkout ".toList ++ currentBranch ++ " --progress".toList,
        "git branch -D ".toList ++ portalBranch,
        "git reset --hard ".toList ++ remoteTrackingBranch]

/-- The commands of the pull in the order of the source. `clean` says that the index was
not dirty, so that `unpublishedWork` was asked as well. -/
def pullSequence (clean : Bool) (portalBranch sha : Str) : List Str :=
  [cmdUpstream,
   "git rev-parse --abbrev-ref HEAD".toList,
   "git status --porcelain=v1".toList]
    ++ (if clean then ["git status -sb".toList] else [])
    ++ [cmdDuetAuthor,
        cmdDuetCommitter,
        cmdTogether,
        "git ls-remote --heads origin ".toList ++ portalBranch,
        "git fetch".toList,
        "git pull -r".toList,
        "git checkout origin/".toList ++ portalBranch ++ " -- portal-meta.yml".toList,
        "rm portal-meta.yml".toList,
        "git reset --hard ".toList ++ sha,
        "git rebase origin/".toList ++ portalBranch,
        "git reset HEAD^^".toList,
        "rm portal-meta.yml".toList,
        "git push origin --delete ".toList ++ portalBranch,
        "echo done".toList]

/-- The two status queries, the second one asked when `clean`. -/
def statusQueries (clean : Bool) : List Str :=
  "git status --porcelain=v1".toList :: (if clean then ["git status -sb".toList] else [])

/-- The three lookups of the pair. -/
def pairQueries : List Str := [cmdDuetAuthor, cmdDuetCommitter, cmdTogether]

/-- The commands of `getBoundarySha`, the second one asked unless `diverged`. -/
def boundaryQueries (diverged : Bool) (r c : Str) : List Str :=
  cmdRevList r c :: (if diverged then [] else ["git rev-parse ".toList ++ c])

/-- The commands of the pull up to its validation. -/
def fetchSequence (clean : Bool) (portalBranch : Str) : List Str :=
  [cmdUpstream, "git rev-parse --abbrev-ref HEAD".toList] ++ statusQueries clean ++ pairQueries
    ++ ["git ls-remote --heads origin ".toList ++ portalBranch,
        "git fetch".toList,
        "git pull -r".toList,
        "git checkout origin/".toList ++ portalBranch ++ " -- portal-meta.yml".toList,
        "rm portal-meta.yml".toList]

/-- The commands run so far are an initial segment of a declared sequence of the push. -/
def InPushSequence (now : Str) (tr : List Str) : Prop :=
  ∃ clean diverged portalBranch currentBranch remoteTrackingBranch,
    tr <+: pushSequence clean diverged now portalBranch currentBranch remoteTrackingBranch

/-- The commands run so far are an initial segment of a declared sequence of the pull. -/
def InPullSequence (tr : List Str) : Prop :=
  ∃ clean portalBranch sha, tr <+: pullSequence clean portalBranch sha

/-- The commands run so far are exactly `tr`. -/
def At (tr : List Str) (s : St) : Prop := s.trace = tr

/-- The commands the push issues with `_, _ = execute(...)` or through a helper that
reads the output only: their error is dropped. -/
def pushDirect (command : Str) : Bool :=
  startsWithAny ["git add".toList, "git commit".toList, "git format-patch".toList,
    "git rev-list".toList] command

/-- The commands the pull issues with `_, _ = execute(...)`: their error is dropped. -/
def pullDirect (command : Str) : Bool :=
  startsWithAny ["git fetch".toList, "git pull".toList, "git checkout".toList,
    "rm ".toList, "git reset".toList, "git rebase".toList, "git push".toList] command

/-- The world in which the commands recognised by `direct` succeed, with the output
they have in `w`; every other response is that of `w`. -/
def clearErr (direct : Str → Bool) (w : World) : World :=
  { w with resp := fun k cmd =>
      if direct cmd then ⟨(w.resp k cmd).out, false⟩ else w.resp k cmd }

/-- The commands whose error a workflow reads are not among those `d` clears. -/
structure ReadsKept (d : Str → Bool) : Prop where
  upstream : d cmdUpstream = false
  porcelain : d "git status --porcelain=v1".toList = false
  statusSb : d "git status -sb".toList = false
  duetAuthor : d cmdDuetAuthor = false
  duetCommitter : d cmdDuetCommitter = false
  together : d cmdTogether = false
  lsRemote : ∀ b, d ("git ls-remote --heads origin ".toList ++ b) = false

/-! # Theorems -/

theorem nonEmpty_eq (xs : List Str) : nonEmpty xs = !xs.isEmpty := by
  cases xs <;> simp [nonEmpty]

theorem empty_eq (xs : List Str) : empty xs = xs.isEmpty := by
  cases xs <;> simp [empty]

theorem all_empty_iff (pairs : List (List Str)) :
    all pairs empty = true ↔ ∀ xs ∈ pairs, xs = [] := by
  induction pairs with
  | nil => simp [all]
  | cons p ps ih =>
    cases p with
    | nil => simp [all, empty, ih]
    | cons a as => simp [all, empty]

theorem manyLoop_true (pairs : List (List Str)) :
    manyLoop nonEmpty true pairs = true ↔ 1 ≤ (pairs.filter (fun xs => !xs.isEmpty)).length := by
  induction pairs with
  | nil => simp [manyLoop]
  | cons p ps ih =>
    cases p with
    | nil => simp [manyLoop, nonEmpty, ih]
    | cons a as => simp [manyLoop, nonEmpty]

theorem manyLoop_false (pairs : List (List Str)) :
    manyLoop nonEmpty false pairs = true ↔ 2 ≤ (pairs.filter (fun xs => !xs.isEmpty)).length := by
  induction pairs with
  | nil => simp [manyLoop]
  | cons p ps ih =>
    cases p with
    | nil => simp [manyLoop, nonEmpty, ih]
    | cons a as => simp [manyLoop, nonEmpty, manyLoop_true]

theorem findFirst_eq (pairs : List (List Str)) :
    findFirst pairs nonEmpty = ((pairs.filter (fun xs => !xs.isEmpty)).head?).getD [] := by
  induction pairs with
  | nil => simp [findFirst]
  | cons p ps ih =>
    cases p with
    | nil => simp [findFirst, nonEmpty, ih]
    | cons a as => simp [findFirst, nonEmpty]

theorem filter_nonEmpty_eq_nil (pairs : List (List Str)) :
    pairs.filter (fun xs => !xs.isEmpty) = [] ↔ ∀ xs ∈ pairs, xs = [] := by
  simp [List.filter_eq_nil_iff]

/-- C1: the selection of `branchNameStrategy` over the providers' results: all results
empty gives the error "no branch naming strategy found"; two or more non-empty
results give the error "multiple branch naming strategies found"; exactly one
non-empty result is returned unchanged. -/
theorem selectStrategy_spec (pairs : List (List Str)) :
    ((∀ xs ∈ pairs, xs = []) → selectStrategy pairs = .error errNoStrategy) ∧
    (2 ≤ (pairs.filter (fun xs => !xs.isEmpty)).length →
      selectStrategy pairs = .error errMultipleStrategies) ∧
    (∀ xs, pairs.filter (fun xs => !xs.isEmpty) = [xs] → selectStrategy pairs = .ok xs) := by
  refine ⟨?_, ?_, ?_⟩
  · intro h
    simp [selectStrategy, (all_empty_iff pairs).2 h]
  · intro h
    have hall : all pairs empty = false := by
      cases hc : all pairs empty with
      | false => rfl
      | true =>
        have := (filter_nonEmpty_eq_nil pairs).2 ((all_empty_iff pairs).1 hc)
        rw [this] at h
        simp at h
    have hmany : many pairs nonEmpty = true := (manyLoop_false pairs).2 h
    simp [selectStrategy, hall, hmany]
  · intro xs h
    have hall : all pairs empty = false := by
      cases hc : all pairs empty with
      | false => rfl
      | true =>
        have := (filter_nonEmpty_eq_nil pairs).2 ((all_empty_iff pairs).1 hc)
        rw [this] at h
        simp at h
    have hmany : many pairs nonEmpty = false := by
      cases hc : many pairs nonEmpty with
      | false => rfl
      | true =>
        have := (manyLoop_false pairs).1 hc
        rw [h] at this
        simp at this
    simp [selectStrategy, hall, hmany, findFirst_eq, h]

theorem selectStrategy_spec_witness :
    selectStrategy [[], []] = .error errNoStrategy ∧
    selectStrategy [["aa\n".toList, "bb\n".toList], ["cc".toList]] = .error errMultipleStrategies ∧
    selectStrategy [["aa\n".toList, "bb\n".toList], []] = .ok ["aa\n".toList, "bb\n".toList] :=
  ⟨(selectStrategy_spec [[], []]).1 (by decide),
   (selectStrategy_spec [["aa\n".toList, "bb\n".toList], ["cc".toList]]).2.1 (by decide),
   (selectStrategy_spec [["aa\n".toList, "bb\n".toList], []]).2.2 _ (by decide)⟩

theorem char_eq_of_toNat_eq {a b : Char} (h : a.toNat = b.toNat) : a = b := by
  apply Char.ext
  apply UInt32.ext
  exact h

theorem strLt_asymm : ∀ a b : Str, strLt a b = true → strLt b a = false
  | [], [] => by simp [strLt]
  | [], _ :: _ => by simp [strLt]
  | _ :: _, [] => by simp [strLt]
  | a :: as, b :: bs => by
    have ih := strLt_asymm as bs
    simp only [strLt]
    split_ifs <;> first | omega | exact ih | simp

theorem strLe_total (a b : Str) : StrLe a b ∨ StrLe b a := by
  unfold StrLe
  cases h : strLt b a with
  | false => exact Or.inl rfl
  | true => exact Or.inr (strLt_asymm b a h)

theorem strLe_antisymm : ∀ a b : Str, StrLe a b → StrLe b a → a = b
  | [], [] => by simp
  | [], _ :: _ => by simp [StrLe, strLt]
  | _ :: _, [] => by simp [StrLe, strLt]
  | a :: as, b :: bs => by
    have ih := strLe_antisymm as bs
    unfold StrLe at *
    simp only [strLt]
    split_ifs with h1 h2 h3 <;> try simp
    intro h5 h6
    exact ⟨char_eq_of_toNat_eq (by omega), ih h5 h6⟩

theorem strLe_trans : ∀ a b c : Str, StrLe a b → StrLe b c → StrLe a c
  | [], _, _ => by
    intro _ _
    unfold StrLe
    cases ‹Str› <;> simp [strLt]
  | _ :: _, [], _ => by simp [StrLe, strLt]
  | _ :: _, _ :: _, [] => by simp [StrLe, strLt]
  | a :: as, b :: bs, c :: cs => by
    have ih := strLe_trans as bs cs
    unfold StrLe at *
    simp only [strLt]
    split_ifs <;> first | omega | exact ih | simp

theorem sortStrings_perm (xs : List Str) : (sortStrings xs).Perm xs :=
  List.perm_insertionSort StrLe xs

theorem sortStrings_sorted (xs : List Str) : (sortStrings xs).Sorted StrLe :=
  haveI : IsTotal Str StrLe := ⟨strLe_total⟩
  haveI : IsTrans Str StrLe := ⟨strLe_trans⟩
  List.sorted_insertionSort StrLe xs

/-- The result of `sort.Strings` is determined by the order alone: any sorted
rearrangement of the input is the one computed. -/
theorem sortStrings_unique (xs ys : List Str) (hp : ys.Perm xs) (hs : ys.Sorted StrLe) :
    sortStrings xs = ys :=
  haveI : IsAntisymm Str StrLe := ⟨strLe_antisymm⟩
  List.eq_of_perm_of_sorted ((sortStrings_perm xs).trans hp.symm) (sortStrings_sorted xs) hs

theorem sortStrings_congr {xs ys : List Str} (hp : xs.Perm ys) : sortStrings xs = sortStrings ys :=
  sortStrings_unique xs (sortStrings ys) ((sortStrings_perm ys).trans hp.symm) (sortStrings_sorted ys)

/-- C2: `getPortalBranch` is order-invariant: a permutation of the token list gives the
identical branch name. -/
theorem getPortalBranch_perm (xs ys : List Str) (h : ys.Perm xs) :
    getPortalBranch ys = getPortalBranch xs := by
  unfold getPortalBranch
  rw [sortStrings_congr h]

theorem getPortalBranch_perm_witness :
    getPortalBranch ["bb\n".toList, "aa\n".toList] = getPortalBranch ["aa\n".toList, "bb\n".toList] :=
  getPortalBranch_perm _ _ (List.Perm.swap _ _ _)

/-! ### Branch name: order of sorting and trimming -/

/-- C3: on the tokens `"a\tb"`, `"a\n"` (the pieces of the git-together value
`"a\tb+a\n"`) `getPortalBranch` sorts before it trims and returns `portal-a\tb-a`,
where trimming, then sorting, gives `portal-a-a\tb`. -/
theorem getPortalBranch_sorts_before_trim :
    getPortalBranch ["a\tb".toList, "a\n".toList] = "portal-a\tb-a".toList ∧
    derivePortalBranchName ["a\tb".toList, "a\n".toList] = "portal-a-a\tb".toList ∧
    getPortalBranch ["a\tb".toList, "a\n".toList]
      ≠ derivePortalBranchName ["a\tb".toList, "a\n".toList] := by
  decide

/-- C4: the authors `a` and `a\tb`, configured through git-together in the two possible
orders, give two different portal branch names. -/
theorem together_branch_depends_on_order :
    (gitTogether (scripted [⟨togetherOutput ["a".toList, "a\tb".toList], false⟩] none "v1.0.0")
      St.init).value = some ["a".toList, "a\tb\n".toList] ∧
    (gitTogether (scripted [⟨togetherOutput ["a\tb".toList, "a".toList], false⟩] none "v1.0.0")
      St.init).value = some ["a\tb".toList, "a\n".toList] ∧
    getPortalBranch ["a".toList, "a\tb\n".toList] = "portal-a-a\tb".toList ∧
    getPortalBranch ["a\tb".toList, "a\n".toList] = "portal-a\tb-a".toList := by
  decide

/-! ### Boundary commit -/

theorem split_ne_nil (s : Str) (sep : Char) : Split s sep ≠ [] := by
  cases s with
  | nil => simp [Split]
  | cons c cs =>
    simp only [Split]
    split_ifs
    · simp
    · cases Split cs sep <;> simp

theorem fieldsLoop_newline (s : Str) :
    fieldsLoop (fun c => c == '\n') false [] s = nonEmptyLines s ∧
    ∀ cur : Str, fieldsLoop (fun c => c == '\n') true cur s =
      (cur.reverse ++ (Split s '\n').headD []) ::
        (Split s '\n').tail.filter (fun line => !line.isEmpty) := by
  induction s with
  | nil => simp [fieldsLoop, nonEmptyLines, Split]
  | cons c cs ih =>
    obtain ⟨ih1, ih2⟩ := ih
    by_cases hc : c = '\n'
    · subst hc
      refine ⟨?_, fun cur => ?_⟩
      · simp [fieldsLoop, nonEmptyLines, Split] at ih1 ⊢
        exact ih1
      · simp [fieldsLoop, nonEmptyLines, Split] at ih1 ⊢
        exact ih1
    · have hf : (c == '\n') = false := by simp [hc]
      refine ⟨?_, fun cur => ?_⟩
      · simp only [fieldsLoop, hf, nonEmptyLines, Split, if_neg hc]
        rw [ih2]
        cases hs : Split cs '\n' with
        | nil => exact absurd hs (split_ne_nil _ _)
        | cons p ps => simp
      · simp only [fieldsLoop, hf, Split, if_neg hc]
        rw [ih2]
        cases hs : Split cs '\n' with
        | nil => exact absurd hs (split_ne_nil _ _)
        | cons p ps => simp

/-- The fields `parseRefBoundary` indexes are the non-empty lines of the output. -/
theorem FieldsFunc_newline (s : Str) :
    FieldsFunc s (fun c => c == '\n') = nonEmptyLines s :=
  (fieldsLoop_newline s).1

theorem parseRefBoundary_eq (s : Str) :
    parseRefBoundary s = (nonEmptyLines s).getLast?.map trimFirstRune := by
  unfold parseRefBoundary
  simp only [FieldsFunc_newline]
  cases (nonEmptyLines s).getLast? <;> rfl

theorem mem_nonEmptyLines_ne_nil {s line : Str} (h : line ∈ nonEmptyLines s) : line ≠ [] := by
  simp [nonEmptyLines] at h
  exact h.2

/-- C5: when the revision list has a non-empty line, `getBoundarySha` returns the last
non-empty line without its first character (the boundary marker), and the one command
it runs is the revision list: the hash of the local ref is not asked for. -/
theorem getBoundarySha_last_line (w : World) (remoteTrackingBranch currentBranch : Str)
    (s : St) (line : Str)
    (h : (nonEmptyLines
      (w.resp s.trace.length (cmdRevList remoteTrackingBranch currentBranch)).out).getLast?
        = some line) :
    ∃ marker sha, line = marker :: sha ∧
      getBoundarySha w remoteTrackingBranch currentBranch s =
        .ok sha { s with trace := s.trace ++ [cmdRevList remoteTrackingBranch currentBranch] } := by
  have hmem : line ∈ nonEmptyLines
      (w.resp s.trace.length (cmdRevList remoteTrackingBranch currentBranch)).out :=
    List.mem_of_getLast?_eq_some h
  have hne := mem_nonEmptyLines_ne_nil hmem
  obtain ⟨marker, sha, rfl⟩ := List.exists_cons_of_ne_nil hne
  refine ⟨marker, sha, rfl, ?_⟩
  have hlen : 0 < (w.resp s.trace.length (cmdRevList remoteTrackingBranch currentBranch)).out.length := by
    cases ho : (w.resp s.trace.length (cmdRevList remoteTrackingBranch currentBranch)).out with
    | nil => rw [ho] at h; simp [nonEmptyLines, Split] at h
    | cons c cs => simp
  simp only [getBoundarySha, bind, M.bind, execute, pure, M.pure, gt_iff_lt, hlen, if_true,
    parseRefBoundary_eq, h, Option.map_some', trimFirstRune, decodeRuneSize, List.drop_one,
    List.tail_cons, List.drop_succ_cons, List.drop_zero]

theorem getBoundarySha_last_line_witness :
    getBoundarySha (scripted [okOut "<commitA\n=commitB\n"] none "v1.0.0")
        "origin/feature-x".toList "feature-x".toList St.init =
      .ok "commitB".toList
        ⟨[cmdRevList "origin/feature-x".toList "feature-x".toList], [], []⟩ := by
  obtain ⟨marker, sha, h1, h2⟩ := getBoundarySha_last_line
    (scripted [okOut "<commitA\n=commitB\n"] none "v1.0.0")
    "origin/feature-x".toList "feature-x".toList St.init "=commitB".toList (by decide)
  cases h1
  exact h2

/-- C10: on the revision-list output `"\n"`, which is not empty, no field is left after
the split: `parseRefBoundary` indexes an empty slice and `getBoundarySha` panics. -/
theorem parseRefBoundary_newline_panics :
    ("\n".toList.length > 0) ∧
    FieldsFunc "\n".toList (fun c => c == '\n') = [] ∧
    parseRefBoundary "\n".toList = none ∧
    getBoundarySha (scripted [okOut "\n"] none "v1.0.0")
        "origin/feature-x".toList "feature-x".toList St.init =
      .halt .panic ⟨[cmdRevList "origin/feature-x".toList "feature-x".toList], [], []⟩ := by
  decide

/-! ### Identity providers -/

/-- C9, as stated, fails: a git-together lookup that succeeds with empty output gives
the one-token list `[""]`, and a git-duet pair of lookups of which only the committer
fails gives the two-token list `["aa\n", ""]`; `nonEmpty` holds of both. -/
theorem provider_empty_output_is_configured :
    ((scripted [okOut ""] none "v1.0.0").resp 0 cmdTogether).out = [] ∧
    (gitTogether (scripted [okOut ""] none "v1.0.0") St.init).value = some [[]] ∧
    nonEmpty [[]] = true ∧
    ((scripted [okOut "aa\n", failed] none "v1.0.0").resp 1 cmdDuetCommitter).err = true ∧
    ((scripted [okOut "aa\n", failed] none "v1.0.0").resp 1 cmdDuetCommitter).out = [] ∧
    (gitDuet (scripted [okOut "aa\n", failed] none "v1.0.0") St.init).value
      = some ["aa\n".toList, []] ∧
    nonEmpty ["aa\n".toList, []] = true := by
  decide

/-- C9 (amended): git-together is not configured (empty token list, for which `empty`
holds) exactly when its lookup fails, git-duet exactly when both of its lookups fail;
a lookup that succeeds, whatever its output, gives a non-empty token list. -/
theorem provider_failure_is_not_configured (w : World) (s : St) :
    ((w.resp s.trace.length cmdTogether).err = true →
      (gitTogether w s).value = some [] ∧ empty [] = true) ∧
    ((w.resp s.trace.length cmdTogether).err = false →
      ∃ ts, (gitTogether w s).value = some ts ∧ nonEmpty ts = true) ∧
    ((w.resp s.trace.length cmdDuetAuthor).err = true →
      (w.resp (s.trace.length + 1) cmdDuetCommitter).err = true →
      (gitDuet w s).value = some [] ∧ empty [] = true) ∧
    ((w.resp s.trace.length cmdDuetAuthor).err = false ∨
      (w.resp (s.trace.length + 1) cmdDuetCommitter).err = false →
      ∃ ts, (gitDuet w s).value = some ts ∧ nonEmpty ts = true) := by
  refine ⟨?_, ?_, ?_, ?_⟩
  · intro h
    simp [gitTogether, bind, M.bind, execute, pure, M.pure, h, Res.value, empty]
  · intro h
    refine ⟨Split (w.resp s.trace.length cmdTogether).out '+', ?_, ?_⟩
    · simp [gitTogether, bind, M.bind, execute, pure, M.pure, h, Res.value]
    · have := split_ne_nil (w.resp s.trace.length cmdTogether).out '+'
      cases hs : Split (w.resp s.trace.length cmdTogether).out '+' with
      | nil => exact absurd hs this
      | cons p ps => simp [nonEmpty]
  · intro h1 h2
    simp [gitDuet, bind, M.bind, execute, pure, M.pure, h1, h2, Res.value, empty]
  · intro h
    refine ⟨[(w.resp s.trace.length cmdDuetAuthor).out,
      (w.resp (s.trace.length + 1) cmdDuetCommitter).out], ?_, by simp [nonEmpty]⟩
    rcases h with h | h <;>
      simp [gitDuet, bind, M.bind, execute, pure, M.pure, h, Res.value]

theorem provider_failure_is_not_configured_witness :
    ((gitTogether (scripted [failed, failed] none "v1.0.0") St.init).value = some []
      ∧ empty [] = true) ∧
    ((gitDuet (scripted [failed, failed] none "v1.0.0") St.init).value = some []
      ∧ empty [] = true) ∧
    (∃ ts, (gitTogether (scripted [okOut "aa+bb\n"] none "v1.0.0") St.init).value = some ts
      ∧ nonEmpty ts = true) ∧
    (∃ ts, (gitDuet (scripted [okOut "aa\n", failed] none "v1.0.0") St.init).value = some ts
      ∧ nonEmpty ts = true) :=
  ⟨(provider_failure_is_not_configured (scripted [failed, failed] none "v1.0.0") St.init).1
      (by decide),
   (provider_failure_is_not_configured (scripted [failed, failed] none "v1.0.0") St.init).2.2.1
      (by decide) (by decide),
   (provider_failure_is_not_configured (scripted [okOut "aa+bb\n"] none "v1.0.0") St.init).2.1
      (by decide),
   (provider_failure_is_not_configured (scripted [okOut "aa\n", failed] none "v1.0.0")
      St.init).2.2.2 (Or.inl (by decide))⟩

/-! ### Package semver: the major version of a canonical version -/

theorem takeWhile_digits_append (l r : Str) (h : NoDigitHead r) :
    (l.takeWhile isDigit ++ r).takeWhile isDigit = l.takeWhile isDigit ∧
    (l.takeWhile isDigit ++ r).dropWhile isDigit = r := by
  have hr : r.takeWhile isDigit = [] ∧ r.dropWhile isDigit = r := by
    cases r with
    | nil => simp
    | cons c cs =>
      have : isDigit c = false := h c (by simp)
      simp [List.takeWhile, List.dropWhile, this]
  induction l with
  | nil => simpa using hr
  | cons a l ih =>
    by_cases ha : isDigit a = true
    · simp [List.takeWhile, List.dropWhile, ha, ih]
    · simp only [Bool.not_eq_true] at ha
      simpa [List.takeWhile, ha] using hr

theorem noDigitHead_dropWhile (l : Str) : NoDigitHead (l.dropWhile isDigit) := by
  induction l with
  | nil => simp [NoDigitHead]
  | cons a l ih =>
    by_cases ha : isDigit a = true
    · simpa [List.dropWhile, ha] using ih
    · simp only [Bool.not_eq_true] at ha
      simp [List.dropWhile, ha, NoDigitHead]

/-- What a successful `parseInt` says of its input. -/
theorem parseInt_some {v t r : Str} (h : parseInt v = some (t, r)) :
    v = t ++ r ∧ NoDigitHead r ∧ ∀ r2, NoDigitHead r2 → parseInt (t ++ r2) = some (t, r2) := by
  cases v with
  | nil => simp [parseInt] at h
  | cons c cs =>
    simp only [parseInt] at h
    split_ifs at h with h1 h2
    simp only [Option.some.injEq, Prod.mk.injEq] at h
    obtain ⟨rfl, rfl⟩ := h
    refine ⟨by simp, noDigitHead_dropWhile cs, fun r2 hr2 => ?_⟩
    obtain ⟨e1, e2⟩ := takeWhile_digits_append cs r2 hr2
    simp only [List.cons_append, parseInt, h1, e1, e2]
    simp only [Bool.false_eq_true, ↓reduceIte, h2]

theorem noDigitHead_nil : NoDigitHead [] := by simp [NoDigitHead]

theorem noDigitHead_cons {c : Char} (cs : Str) (h : isDigit c = false) : NoDigitHead (c :: cs) := by
  simpa [NoDigitHead] using h

/-- The prerelease loop reads the same runes when the text stops where it stopped. -/
theorem prereleaseLoop_some : ∀ (x cur t r : Str), prereleaseLoop cur x = some (t, r) →
    x = t ++ r ∧ prereleaseLoop cur t = some (t, []) := by
  intro x
  induction x with
  | nil =>
    intro cur t r h
    simp only [prereleaseLoop] at h
    split_ifs at h with h1
    simp only [Option.some.injEq, Prod.mk.injEq] at h
    obtain ⟨rfl, rfl⟩ := h
    simp [prereleaseLoop, h1]
  | cons c cs ih =>
    intro cur t r h
    simp only [prereleaseLoop] at h
    split_ifs at h with h1 h2 h3 h4 h5
    · simp only [Option.some.injEq, Prod.mk.injEq] at h
      obtain ⟨rfl, rfl⟩ := h
      simp [prereleaseLoop, h2]
    · simp only [Option.map_eq_some', Prod.mk.injEq, Prod.exists] at h
      obtain ⟨t1, r1, h6, rfl, rfl⟩ := h
      obtain ⟨e1, e2⟩ := ih _ _ _ h6
      refine ⟨by simp [e1], ?_⟩
      simp only [prereleaseLoop, h1, h3, h4, h5, e2]
      simp
    · simp only [Option.map_eq_some', Prod.mk.injEq, Prod.exists] at h
      obtain ⟨t1, r1, h6, rfl, rfl⟩ := h
      obtain ⟨e1, e2⟩ := ih _ _ _ h6
      refine ⟨by simp [e1], ?_⟩
      simp only [prereleaseLoop, h1, h3, h4, e2]
      simp

/-- The build loop reads its text to the end. -/
theorem buildLoop_some : ∀ (x cur t r : Str), buildLoop cur x = some (t, r) →
    x = t ∧ r = [] := by
  intro x
  induction x with
  | nil =>
    intro cur t r h
    simp only [buildLoop] at h
    split_ifs at h
    simp only [Option.some.injEq, Prod.mk.injEq] at h
    obtain ⟨rfl, rfl⟩ := h
    simp
  | cons c cs ih =>
    intro cur t r h
    simp only [buildLoop] at h
    split_ifs at h <;>
    · simp only [Option.map_eq_some', Prod.mk.injEq, Prod.exists] at h
      obtain ⟨t1, r1, h6, rfl, rfl⟩ := h
      obtain ⟨e1, e2⟩ := ih _ _ _ h6
      simp [e1, e2]

theorem parsePrerelease_some {v t r : Str} (h : parsePrerelease v = some (t, r)) :
    v = t ++ r ∧ parsePrerelease t = some (t, []) ∧ ∃ t1, t = '-' :: t1 := by
  cases v with
  | nil => simp [parsePrerelease] at h
  | cons c cs =>
    simp only [parsePrerelease] at h
    split_ifs at h with h1
    simp only [Option.map_eq_some', Prod.mk.injEq, Prod.exists] at h
    obtain ⟨t1, r1, h6, rfl, rfl⟩ := h
    obtain ⟨e1, e2⟩ := prereleaseLoop_some _ _ _ _ h6
    have hc : c = '-' := by simpa using h1
    subst hc
    refine ⟨by simp [e1], ?_, t1, rfl⟩
    simp [parsePrerelease, e2]

theorem parseBuild_some {v t r : Str} (h : parseBuild v = some (t, r)) :
    v = t ∧ r = [] ∧ ∃ t1, t = '+' :: t1 := by
  cases v with
  | nil => simp [parseBuild] at h
  | cons c cs =>
    simp only [parseBuild] at h
    split_ifs at h with h1
    simp only [Option.map_eq_some', Prod.mk.injEq, Prod.exists] at h
    obtain ⟨t1, r1, h6, rfl, rfl⟩ := h
    obtain ⟨e1, e2⟩ := buildLoop_some _ _ _ _ h6
    have hc : c = '+' := by simpa using h1
    subst hc
    exact ⟨by simp [e1], e2, t1, rfl⟩

/-- The build metadata of `parseTail`: nothing, or the whole text from a `+` on. -/
theorem parseTail_build {major minor patch pre v : Str} {p : Parsed}
    (h : (match (match v with
        | '+' :: _ => parseBuild v
        | _ => some ([], v)) with
      | none => none
      | some (build, v) =>
        if v != [] then none
        else some (⟨major, minor, patch, [], pre, build⟩ : Parsed)) = some p) :
    p = ⟨major, minor, patch, [], pre, v⟩ ∧ (v = [] ∨ ∃ t1, v = '+' :: t1) := by
  split at h
  · simp at h
  · rename_i build v2 heq
    split_ifs at h with h1
    simp only [Option.some.injEq] at h
    have hv2 : v2 = [] := by simpa using h1
    subst hv2
    split at heq
    · obtain ⟨e1, _, t1, e3⟩ := parseBuild_some heq
      subst e1
      exact ⟨h.symm, Or.inr ⟨t1, e3⟩⟩
    · simp only [Option.some.injEq, Prod.mk.injEq] at heq
      obtain ⟨rfl, rfl⟩ := heq
      exact ⟨h.symm, Or.inl rfl⟩

theorem parseTail_nil (major minor patch : Str) :
    parseTail major minor patch [] = some ⟨major, minor, patch, [], [], []⟩ := by
  simp [parseTail]

/-- What a successful `parseTail` says of its input: a prerelease (empty or starting
with `-`), then the build metadata (empty or starting with `+`); and the text cut
before the build metadata is accepted as well. -/
theorem parseTail_some {major minor patch v : Str} {p : Parsed}
    (h : parseTail major minor patch v = some p) :
    v = p.prerelease ++ p.build ∧ p.major = major ∧ p.short = [] ∧
    NoDigitHead p.prerelease ∧
    ∃ q, parseTail major minor patch p.prerelease = some q ∧ q.major = major := by
  unfold parseTail at h
  simp only at h
  split at h
  · simp at h
  · rename_i pre v1 heq
    obtain ⟨hp, hv1⟩ := parseTail_build h
    subst hp
    simp only
    split at heq
    · rename_i cs
      obtain ⟨e1, e2, t1, e3⟩ := parsePrerelease_some heq
      refine ⟨e1, trivial, trivial, ?_, ?_⟩
      · subst e3
        exact noDigitHead_cons _ (by decide)
      · subst e3
        refine ⟨⟨major, minor, patch, [], '-' :: t1, []⟩, ?_, rfl⟩
        simp [parseTail, e2]
    · simp only [Option.some.injEq, Prod.mk.injEq] at heq
      obtain ⟨rfl, rfl⟩ := heq
      exact ⟨by simp, trivial, trivial, noDigitHead_nil, _, parseTail_nil _ _ _, rfl⟩

theorem Major_of_parse {major rest : Str} {q : Parsed}
    (h : parse ('v' :: (major ++ rest)) = some q) (hq : q.major = major) :
    Major ('v' :: (major ++ rest)) = 'v' :: major := by
  simp only [Major, h, hq]
  rw [Nat.add_comm, List.take_succ_cons, List.take_left']
  rfl

theorem noDigitHead_dot (cs : Str) : NoDigitHead ('.' :: cs) :=
  noDigitHead_cons cs (by decide)

theorem parseInt_zero_dot_zero : parseInt ('0' :: '.' :: '0' :: []) = some (['0'], ['.', '0']) := by
  decide

theorem parseInt_zero : parseInt ('0' :: []) = some (['0'], []) := by
  decide

/-- The three shapes of a valid version, each with the parse of its canonical form. -/
theorem parse_some {v : Str} {p : Parsed} (h : parse v = some p) :
    ∃ (rest : Str) (q : Str × Str), v = 'v' :: (p.major ++ rest) ∧
      Canonical v = 'v' :: (p.major ++ q.1) ∧
      ∃ r, parse ('v' :: (p.major ++ q.1)) = some r ∧ r.major = p.major ∧ q.2 = rest := by
  have hv := h
  cases v with
  | nil => simp [parse] at h
  | cons c v1 =>
    simp only [parse] at h
    split_ifs at h with hc0
    have hc : c = 'v' := by simpa using hc0
    subst hc
    clear hc0
    split at h
    · simp at h
    · rename_i major v2 hI
      obtain ⟨e1, -, rep1⟩ := parseInt_some hI
      split at h
      · -- "vMAJOR"
        simp only [Option.some.injEq] at h
        subst h
        subst e1
        simp only [List.append_nil] at hv ⊢
        refine ⟨[], (".0.0".toList, []), by simp, ?_, ?_⟩
        · simp [Canonical, hv]
        · refine ⟨⟨major, ['0'], ['0'], [], [], []⟩, ?_, rfl, rfl⟩
          have h1 := rep1 ('.' :: '0' :: '.' :: '0' :: []) (noDigitHead_dot _)
          show parse ('v' :: (major ++ '.' :: '0' :: '.' :: '0' :: [])) = _
          simp only [parse, h1, parseInt_zero_dot_zero, parseInt_zero, parseTail_nil]
          simp
      · rename_i d v3
        split_ifs at h with hd0
        have hd : d = '.' := by simpa using hd0
        subst hd
        clear hd0
        split at h
        · simp at h
        · rename_i minor v4 hI2
          obtain ⟨e2, -, rep2⟩ := parseInt_some hI2
          split at h
          · -- "vMAJOR.MINOR"
            simp only [Option.some.injEq] at h
            subst h
            subst e2
            subst e1
            simp only [List.append_nil] at hv ⊢
            refine ⟨'.' :: minor, ('.' :: (minor ++ ".0".toList), '.' :: minor), rfl, ?_, ?_⟩
            · simp [Canonical, hv]
            · refine ⟨⟨major, minor, ['0'], [], [], []⟩, ?_, rfl, rfl⟩
              have h1 := rep1 ('.' :: (minor ++ '.' :: '0' :: [])) (noDigitHead_dot _)
              have h2 := rep2 ('.' :: '0' :: []) (noDigitHead_dot _)
              show parse ('v' :: (major ++ '.' :: (minor ++ '.' :: '0' :: []))) = _
              simp only [parse, h1, h2, parseInt_zero, parseTail_nil]
              simp
          · rename_i e v5
            split_ifs at h with he0
            have he : e = '.' := by simpa using he0
            subst he
            clear he0
            split at h
            · simp at h
            · -- "vMAJOR.MINOR.PATCH[-PRERELEASE][+BUILD]"
              rename_i patch v6 hI3
              obtain ⟨e3, -, rep3⟩ := parseInt_some hI3
              obtain ⟨e4, hmaj, hshort, hnd, q, hq, hqm⟩ := parseTail_some h
              subst hmaj
              subst e1
              subst e2
              subst e3
              refine ⟨'.' :: (minor ++ '.' :: (patch ++ v6)),
                ('.' :: (minor ++ '.' :: (patch ++ p.prerelease)),
                  '.' :: (minor ++ '.' :: (patch ++ v6))), rfl, ?_, ?_⟩
              · simp only [Canonical, hv, hshort]
                by_cases hb : p.build = []
                · rw [hb] at e4
                  simp [hb, e4]
                · simp only [bne_iff_ne, ne_eq, hb, not_false_eq_true, ↓reduceIte]
                  rw [e4]
                  have : ('v' :: (p.major ++ '.' :: (minor ++ '.' :: (patch ++ (p.prerelease ++ p.build)))))
                      = ('v' :: (p.major ++ '.' :: (minor ++ '.' :: (patch ++ p.prerelease)))) ++ p.build := by
                    simp
                  rw [this, List.length_append, Nat.add_sub_cancel, List.take_left']
                  rfl
              · refine ⟨q, ?_, hqm, rfl⟩
                have h1 := rep1 ('.' :: (minor ++ '.' :: (patch ++ p.prerelease))) (noDigitHead_dot _)
                have h2 := rep2 ('.' :: (patch ++ p.prerelease)) (noDigitHead_dot _)
                have h3 := rep3 p.prerelease hnd
                simp only [parse, h1, h2, h3, hq]
                simp

/-- The major version of the canonical form of a valid version `v` is `v` followed by
the digits of its major number. -/
theorem Major_Canonical {v : Str} {p : Parsed} (h : parse v = some p) :
    Major (Canonical v) = 'v' :: p.major := by
  obtain ⟨rest, q, _, e2, r, hr, hrm, _⟩ := parse_some h
  rw [e2]
  exact Major_of_parse hr hrm

/-- An invalid version has the empty string for canonical form and for major version. -/
theorem Major_Canonical_invalid {v : Str} (h : parse v = none) : Major (Canonical v) = [] := by
  simp only [Canonical, h]
  rfl

/-! ### A program logic for the workflows -/

theorem Triple.bind {α β : Type} {P : St → Prop} {m : M α} {Q : α → St → Prop}
    {E : Halt → St → Prop} {f : α → M β} {R : β → St → Prop}
    (h1 : Triple P m Q E) (h2 : ∀ a, Triple (Q a) (f a) R E) : Triple P (m >>= f) R E := by
  intro s hs
  have := h1 s hs
  show match (M.bind m f) s with
    | .ok a s1 => R a s1
    | .halt h s1 => E h s1
  unfold M.bind
  cases hm : m s with
  | ok a s1 =>
    rw [hm] at this
    exact h2 a s1 this
  | halt h s1 =>
    rw [hm] at this
    exact this

theorem Triple.pure {α : Type} {P : St → Prop} {a : α} {Q : α → St → Prop}
    {E : Halt → St → Prop} (h : ∀ s, P s → Q a s) : Triple P (pure a : M α) Q E := by
  intro s hs
  exact h s hs

theorem Triple.post {α : Type} {P : St → Prop} {m : M α} {Q Q2 : α → St → Prop}
    {E : Halt → St → Prop} (h : Triple P m Q E) (hq : ∀ a s, Q a s → Q2 a s) :
    Triple P m Q2 E := by
  intro s hs
  have := h s hs
  cases hm : m s with
  | ok a s1 => rw [hm] at this; exact hq a s1 this
  | halt h s1 => rw [hm] at this; exact this

theorem Triple.pre {α : Type} {P P2 : St → Prop} {m : M α} {Q : α → St → Prop}
    {E : Halt → St → Prop} (h : Triple P m Q E) (hp : ∀ s, P2 s → P s) :
    Triple P2 m Q E :=
  fun s hs => h s (hp s hs)

/-- A fact that does not speak of the state moves out of the precondition. -/
theorem Triple.assume {α : Type} {P : St → Prop} {φ : Prop} {m : M α} {Q : α → St → Prop}
    {E : Halt → St → Prop} (h : φ → Triple P m Q E) :
    Triple (fun s => P s ∧ φ) m Q E :=
  fun s hs => h hs.2 s hs.1

theorem Triple.ite {α : Type} {P : St → Prop} {c : Prop} [Decidable c] {m1 m2 : M α}
    {Q : α → St → Prop} {E : Halt → St → Prop}
    (h1 : c → Triple P m1 Q E) (h2 : ¬c → Triple P m2 Q E) :
    Triple P (if c then m1 else m2) Q E := by
  split_ifs with hc
  · exact h1 hc
  · exact h2 hc

namespace Logic.Sound

variable {w : World} {L : Logic w} (hL : L.Sound)
include hL

theorem println (line : Str) : Triple L.Pre (println line) (fun _ => L.Pre) L.E := by
  intro s hs
  exact hs

theorem writeFile (f : FileWrite) : Triple L.Pre (writeFile f) (fun _ => L.Pre) L.E := by
  intro s hs
  exact hs

theorem exit1 {α : Type} (Q : α → St → Prop) : Triple L.Pre (osExit 1 : M α) Q L.E := by
  intro s hs
  exact hL.exit_ok s hs

/-- Print a line and exit with status 1. -/
theorem printExit {α : Type} (line : Str) (Q : α → St → Prop) :
    Triple L.Pre (do Portal.println line; osExit 1 : M α) Q L.E :=
  Triple.bind (hL.println line) (fun _ => hL.exit1 Q)

theorem commandFailure {α : Type} (command : Str) (Q : α → St → Prop) :
    Triple L.Pre (commandFailure command : M α) Q L.E :=
  Triple.bind (hL.println command) (fun _ => hL.exit1 Q)

/-- A guarded exit: afterwards the guard is false. -/
theorem whenExit (cond : Bool) (body : M Unit)
    (h : Triple L.Pre body (fun _ _ => False) L.E) :
    Triple L.Pre (whenM cond body) (fun _ s => L.Pre s ∧ cond = false) L.E := by
  unfold whenM
  cases cond with
  | true =>
    intro s hs
    have := h s hs
    simp only [if_true]
    cases hb : body s with
    | ok a s1 => rw [hb] at this; exact this.elim
    | halt h s1 => rw [hb] at this; exact this
  | false =>
    intro s hs
    exact ⟨hs, rfl⟩

/-- A guarded step that keeps the invariant. -/
theorem whenKeep (cond : Bool) (body : M Unit)
    (h : Triple L.Pre body (fun _ => L.Pre) L.E) :
    Triple L.Pre (whenM cond body) (fun _ => L.Pre) L.E := by
  unfold whenM
  cases cond with
  | true => simpa using h
  | false => exact Triple.pure (fun s hs => hs)

/-- A command whose error is discarded. -/
theorem exec (cmd : Str) (h : L.unchecked cmd) :
    Triple L.Pre (execute w cmd) (fun _ => L.Pre) L.E := by
  intro s hs
  exact hL.snoc_unchecked _ _ hs h

/-- A command whose error is fatal: `execute`, then `commandFailure` on error, then the
rest. -/
theorem execChecked {β : Type} (cmd : Str) (h : L.checked cmd) (k : Resp → M β)
    (R : β → St → Prop) (hk : ∀ r, Triple L.Pre (k r) R L.E) :
    Triple L.Pre (execute w cmd >>= fun r => whenM r.err (Portal.commandFailure cmd) >>=
      fun _ => k r) R L.E := by
  intro s hs
  simp only [bind, M.bind, execute, whenM]
  cases he : (w.resp s.trace.length cmd).err with
  | true =>
    simp only [if_true, Portal.commandFailure, bind, M.bind, Portal.println, osExit]
    exact hL.snoc_err _ _ _ _ hs h he
  | false =>
    simp only [Bool.false_eq_true, if_false, pure, M.pure]
    exact hk _ _ (hL.snoc_ok _ _ hs h he)

end Logic.Sound

namespace Logic.Sound

variable {w : World} {L : Logic w} (hL : L.Sound)
include hL

theorem keep {α : Type} (a : α) : Triple L.Pre (pure a : M α) (fun _ => L.Pre) L.E :=
  Triple.pure (fun _ hs => hs)

theorem currentBranchRemotelyUntracked (h : QuerySide L) :
    Triple L.Pre (Portal.currentBranchRemotelyUntracked w) (fun _ => L.Pre) L.E :=
  Triple.bind (hL.exec _ h.upstream) (fun r => hL.keep r.err)

theorem getCurrentBranch (h : QuerySide L) :
    Triple L.Pre (Portal.getCurrentBranch w) (fun _ => L.Pre) L.E :=
  Triple.bind (hL.exec _ h.head) (fun _ => hL.keep _)

theorem getRemoteTrackingBranch (h : QuerySide L) :
    Triple L.Pre (Portal.getRemoteTrackingBranch w) (fun _ => L.Pre) L.E :=
  Triple.bind (hL.exec _ h.upstream) (fun _ => hL.keep _)

theorem dirtyIndex (h : QuerySide L) :
    Triple L.Pre (Portal.dirtyIndex w) (fun _ => L.Pre) L.E :=
  hL.execChecked _ h.porcelain _ _ (fun _ => hL.keep _)

theorem unpublishedWork (h : QuerySide L) :
    Triple L.Pre (Portal.unpublishedWork w) (fun _ => L.Pre) L.E :=
  hL.execChecked _ h.statusSb _ _ (fun _ => hL.keep _)

theorem localBranchExists (b : Str) (h : L.checked ("git branch --list ".toList ++ b)) :
    Triple L.Pre (Portal.localBranchExists w b) (fun _ => L.Pre) L.E :=
  hL.execChecked _ h _ _ (fun _ => hL.keep _)

theorem remoteBranchExists (h : QuerySide L) (b : Str) :
    Triple L.Pre (Portal.remoteBranchExists w b) (fun _ => L.Pre) L.E :=
  hL.execChecked _ (h.lsRemote b) _ _ (fun _ => hL.keep _)

theorem notClean (h : QuerySide L) :
    Triple L.Pre (Portal.notClean w) (fun _ => L.Pre) L.E :=
  Triple.bind (hL.dirtyIndex h) (fun _ =>
    Triple.ite (fun _ => hL.keep _) (fun _ => hL.unpublishedWork h))

theorem nothingToPush (h : QuerySide L) :
    Triple L.Pre (Portal.nothingToPush w) (fun _ => L.Pre) L.E :=
  Triple.bind (hL.dirtyIndex h) (fun _ =>
    Triple.ite (fun _ => Triple.bind (hL.unpublishedWork h) (fun _ => hL.keep _))
      (fun _ => hL.keep _))

theorem gitDuet (h : QuerySide L) :
    Triple L.Pre (Portal.gitDuet w) (fun _ => L.Pre) L.E :=
  Triple.bind (hL.exec _ h.duetAuthor) (fun _ =>
    Triple.bind (hL.exec _ h.duetCommitter) (fun _ =>
      Triple.ite (fun _ => hL.keep _) (fun _ => hL.keep _)))

theorem gitTogether (h : QuerySide L) :
    Triple L.Pre (Portal.gitTogether w) (fun _ => L.Pre) L.E :=
  Triple.bind (hL.exec _ h.together) (fun _ =>
    Triple.ite (fun _ => hL.keep _) (fun _ => hL.keep _))

theorem branchNameStrategy (h : QuerySide L) :
    Triple L.Pre (Portal.branchNameStrategy w) (fun _ => L.Pre) L.E :=
  Triple.bind (hL.gitDuet h) (fun _ => Triple.bind (hL.gitTogether h) (fun _ => hL.keep _))

theorem strategyOrExit (h : QuerySide L) :
    Triple L.Pre (Portal.strategyOrExit w) (fun _ => L.Pre) L.E := by
  refine Triple.bind (hL.branchNameStrategy h) (fun strategy => ?_)
  cases strategy with
  | error err => exact hL.printExit _ _
  | ok branchStrategy => exact hL.keep _

theorem getConfiguration :
    Triple L.Pre (Portal.getConfiguration w) (fun c s => L.Pre s ∧ w.config = some c) L.E := by
  unfold Portal.getConfiguration
  cases hc : w.config with
  | none => exact hL.exit1 _
  | some c => exact Triple.pure (fun s hs => ⟨hs, rfl⟩)

theorem getBoundarySha (h : PushSide L) (r c : Str) :
    Triple L.Pre (Portal.getBoundarySha w r c) (fun _ => L.Pre) L.E := by
  refine Triple.bind (hL.exec _ (h.revList r c)) (fun out => ?_)
  refine Triple.ite (fun _ => ?_) (fun _ => ?_)
  · cases parseRefBoundary out.out with
    | none => exact fun s hs => h.panic_ok s hs
    | some sha => exact hL.keep sha
  · exact Triple.bind (hL.exec _ (h.revParse c)) (fun _ => hL.keep _)

theorem savePatch (h : PushSide L) (r dateTime : Str) :
    Triple L.Pre (Portal.savePatch w r dateTime) (fun _ => L.Pre) L.E :=
  Triple.bind (hL.exec _ (h.formatPatch r)) (fun _ => hL.writeFile _)

theorem writePortalMetaData (branch sha version : Str) :
    Triple L.Pre (Portal.writePortalMetaData branch sha version) (fun _ => L.Pre) L.E :=
  hL.writeFile _

theorem run (verbose : Bool) : ∀ commands : List Str, (∀ c ∈ commands, L.checked c) →
    Triple L.Pre (Portal.run w commands verbose) (fun _ => L.Pre) L.E
  | [], _ => hL.keep ()
  | command :: rest, h => by
    unfold Portal.run
    refine Triple.bind (hL.whenKeep _ _ (hL.println _)) (fun _ => ?_)
    refine hL.execChecked _ (h command (by simp)) _ _ (fun r => ?_)
    refine Triple.bind (hL.whenKeep _ _ (hL.println _)) (fun _ => ?_)
    exact run verbose rest (fun c hc => h c (by simp [hc]))

theorem runner (verbose : Bool) (commands : List Str) (msg : Str)
    (h : ∀ c ∈ commands, L.checked c) :
    Triple L.Pre (Portal.runner w commands verbose msg) (fun _ => L.Pre) L.E :=
  Triple.bind (hL.run verbose commands h) (fun _ => hL.println _)

end Logic.Sound

namespace Logic.Sound

variable {w : World} {L : Logic w} (hL : L.Sound)
include hL

/-- A guarded exit, forgetting the guard. -/
theorem whenExit2 (cond : Bool) (body : M Unit)
    (h : Triple L.Pre body (fun _ _ => False) L.E) :
    Triple L.Pre (whenM cond body) (fun _ => L.Pre) L.E :=
  (hL.whenExit cond body h).post (fun _ _ hs => hs.1)

theorem pullFetch (h : FetchSide L) :
    Triple L.Pre (Portal.pullFetch w)
      (fun ctx s => L.Pre s ∧ ∃ c, w.config = some c ∧ ctx.workingBranch = c.workingBranch ∧
        ctx.sha = c.sha ∧ ctx.pusherVersion = Canonical c.version ∧
        ctx.currentVersion = Canonical w.version) L.E := by
  unfold Portal.pullFetch
  refine Triple.bind (hL.currentBranchRemotelyUntracked h.toQuerySide) (fun untracked => ?_)
  refine Triple.bind (hL.whenExit2 _ _ (hL.printExit _ _)) (fun _ => ?_)
  refine Triple.bind (hL.getCurrentBranch h.toQuerySide) (fun startingBranch => ?_)
  refine Triple.bind (hL.notClean h.toQuerySide) (fun unclean => ?_)
  refine Triple.bind (hL.whenExit2 _ _ (hL.printExit _ _)) (fun _ => ?_)
  refine Triple.bind (hL.strategyOrExit h.toQuerySide) (fun branchStrategy => ?_)
  refine Triple.bind (hL.remoteBranchExists h.toQuerySide _) (fun remoteExists => ?_)
  refine Triple.bind (hL.whenExit2 _ _ (hL.printExit _ _)) (fun _ => ?_)
  refine Triple.bind (hL.exec _ h.fetch) (fun _ => ?_)
  refine Triple.bind (hL.exec _ h.pullR) (fun _ => ?_)
  refine Triple.bind (hL.exec _ (h.checkoutMeta _)) (fun _ => ?_)
  refine Triple.bind hL.getConfiguration (fun config => ?_)
  refine @Triple.assume _ L.Pre (w.config = some config) _ _ _ (fun hc => ?_)
  refine Triple.bind (hL.exec _ h.rmMeta) (fun _ => ?_)
  exact Triple.pure (fun s hs => ⟨hs, config, hc, rfl, rfl, rfl, rfl⟩)

theorem pullReplay (h : ReplaySide L) (c : PullCtx) :
    Triple L.Pre (Portal.pullReplay w c) (fun _ => L.Pre) L.E := by
  unfold Portal.pullReplay
  refine Triple.bind (hL.whenExit2 _ _ ?_) (fun _ => ?_)
  · exact Triple.bind (hL.println _) (fun _ => Triple.bind (hL.println _) (fun _ =>
      Triple.bind (hL.println _) (fun _ => hL.printExit _ _)))
  refine Triple.bind (hL.whenExit2 _ _ (hL.printExit _ _)) (fun _ => ?_)
  refine Triple.bind (hL.exec _ (h.resetHard _)) (fun _ => ?_)
  refine Triple.bind (hL.exec _ (h.rebase _)) (fun _ => ?_)
  refine Triple.bind (hL.exec _ h.resetHead) (fun _ => ?_)
  refine Triple.bind (hL.exec _ h.rmMeta) (fun _ => ?_)
  refine Triple.bind (hL.exec _ (h.pushDelete _)) (fun _ => ?_)
  exact hL.runner _ _ _ (fun c hc => by
    have : c = "echo done".toList := by simpa using hc
    rw [this]
    exact h.echoDone)

theorem pull (hf : FetchSide L) (hr : ReplaySide L) :
    Triple L.Pre (Portal.pull w) (fun _ => L.Pre) L.E :=
  Triple.bind (hL.pullFetch hf) (fun c => (hL.pullReplay hr c).pre (fun _ hs => hs.1))

theorem push (h : PushSide L) :
    Triple L.Pre (Portal.push w) (fun _ => L.Pre) L.E := by
  unfold Portal.push
  refine Triple.bind (hL.nothingToPush h.toQuerySide) (fun nothing => ?_)
  refine Triple.bind (hL.whenExit2 _ _ (hL.printExit _ _)) (fun _ => ?_)
  refine Triple.bind (hL.currentBranchRemotelyUntracked h.toQuerySide) (fun untracked => ?_)
  refine Triple.bind (hL.whenExit2 _ _ (hL.printExit _ _)) (fun _ => ?_)
  refine Triple.bind (hL.strategyOrExit h.toQuerySide) (fun branchStrategy => ?_)
  refine Triple.bind (hL.localBranchExists _ (h.branchList _)) (fun localExists => ?_)
  refine Triple.bind (hL.whenExit2 _ _ (hL.printExit _ _)) (fun _ => ?_)
  refine Triple.bind (hL.remoteBranchExists h.toQuerySide _) (fun remoteExists => ?_)
  refine Triple.bind (hL.whenExit2 _ _ (hL.printExit _ _)) (fun _ => ?_)
  refine Triple.bind (hL.getCurrentBranch h.toQuerySide) (fun currentBranch => ?_)
  refine Triple.bind (hL.getRemoteTrackingBranch h.toQuerySide) (fun remoteTrackingBranch => ?_)
  refine Triple.bind (hL.getBoundarySha h _ _) (fun sha => ?_)
  refine Triple.bind (hL.exec _ h.addAll) (fun _ => ?_)
  refine Triple.bind (hL.exec _ h.commitWip) (fun _ => ?_)
  refine Triple.bind (hL.savePatch h _ _) (fun _ => ?_)
  refine Triple.bind (hL.writePortalMetaData _ _ _) (fun _ => ?_)
  refine Triple.bind (hL.exec _ h.addMeta) (fun _ => ?_)
  refine Triple.bind (hL.exec _ h.commitMeta) (fun _ => ?_)
  exact hL.runner _ _ _ (h.published _ _ _ _)

end Logic.Sound

/-! ### The pull: version gate and branch check -/

theorem noResetLogic_sound (w : World) : (noResetLogic w).Sound where
  exit_ok := fun _ hs => ⟨rfl, hs⟩
  snoc_unchecked := by
    intro tr cmd h1 h2 c hc
    rcases List.mem_append.1 hc with h | h
    · exact h1 c h
    · rw [List.mem_singleton.1 h]; exact h2
  snoc_ok := by
    intro tr cmd h1 h2 _ c hc
    rcases List.mem_append.1 hc with h | h
    · exact h1 c h
    · rw [List.mem_singleton.1 h]; exact h2
  snoc_err := by
    intro tr cmd out files h1 h2 _
    refine ⟨rfl, fun c hc => ?_⟩
    rcases List.mem_append.1 hc with h | h
    · exact h1 c h
    · rw [List.mem_singleton.1 h]; exact h2

theorem noResetLogic_fetchSide (w : World) : FetchSide (noResetLogic w) where
  upstream := rfl
  head := rfl
  porcelain := rfl
  statusSb := rfl
  duetAuthor := rfl
  duetCommitter := rfl
  together := rfl
  lsRemote := fun _ => rfl
  fetch := rfl
  pullR := rfl
  checkoutMeta := fun _ => rfl
  rmMeta := rfl

/-- Up to its validation the pull runs no `git reset` and no `git rebase`, stops only
by an exit 1, and hands on the fields of the metadata and the canonical versions. -/
theorem pullFetch_spec (w : World) :
    match pullFetch w St.init with
    | .ok ctx s => (∀ cmd ∈ s.trace, isResetOrRebase cmd = false) ∧
        ∃ c, w.config = some c ∧ ctx.workingBranch = c.workingBranch ∧ ctx.sha = c.sha ∧
          ctx.pusherVersion = Canonical c.version ∧ ctx.currentVersion = Canonical w.version
    | .halt h s => h = .exit 1 ∧ ∀ cmd ∈ s.trace, isResetOrRebase cmd = false := by
  have h := (noResetLogic_sound w).pullFetch (noResetLogic_fetchSide w) St.init
    (fun c hc => by simp [St.init] at hc)
  cases hp : pullFetch w St.init with
  | ok ctx s => rw [hp] at h; exact h
  | halt e s => rw [hp] at h; exact h

theorem pull_eq (w : World) (s : St) :
    pull w s = match pullFetch w s with
      | .ok ctx s1 => pullReplay w ctx s1
      | .halt h s1 => .halt h s1 := by
  cases hp : pullFetch w s <;> simp [pull, bind, M.bind, hp]

theorem pullReplay_reject (w : World) (c : PullCtx) (s : St)
    (h : Major c.pusherVersion ≠ Major c.currentVersion) :
    pullReplay w c s = .halt (.exit 1) { s with out := s.out ++ versionMismatchLines } := by
  have hb : (Major c.pusherVersion != Major c.currentVersion) = true := by simpa using h
  simp [pullReplay, bind, M.bind, whenM, hb, println, osExit, versionMismatchLines]

theorem pullReplay_mismatch (w : World) (c : PullCtx) (s : St)
    (h : Major c.pusherVersion = Major c.currentVersion)
    (hne : c.workingBranch ≠ c.startingBranch) :
    pullReplay w c s = .halt (.exit 1)
      { s with out := s.out ++ [branchMismatchLine c.startingBranch c.workingBranch] } := by
  have hb : (c.workingBranch != c.startingBranch) = true := by simpa using hne
  simp [pullReplay, bind, M.bind, whenM, h, hb, println, osExit, pure, M.pure]

theorem run_echo_trace (w : World) (verbose : Bool) (s : St) :
    (run w ["echo done".toList] verbose s).state.trace = s.trace ++ ["echo done".toList] := by
  cases verbose <;>
    simp [run, bind, M.bind, whenM, println, execute, commandFailure, osExit, pure, M.pure,
      Res.state] <;>
    split_ifs <;> rfl

theorem runner_echo_trace (w : World) (verbose : Bool) (msg : Str) (s : St) :
    (runner w ["echo done".toList] verbose msg s).state.trace
      = s.trace ++ ["echo done".toList] := by
  have := run_echo_trace w verbose s
  simp only [runner, bind, M.bind]
  cases hr : run w ["echo done".toList] verbose s with
  | ok a s1 => rw [hr] at this; simpa [println, Res.state] using this
  | halt h s1 => rw [hr] at this; simpa [Res.state] using this

theorem pullReplay_accept (w : World) (c : PullCtx) (s : St)
    (h : Major c.pusherVersion = Major c.currentVersion)
    (he : c.workingBranch = c.startingBranch) :
    (pullReplay w c s).state.trace = s.trace ++ replayCommands c ++ ["echo done".toList] := by
  simp only [pullReplay, bind, M.bind, whenM, h, he, bne_self_eq_false, Bool.false_eq_true,
    if_false, pure, M.pure, execute]
  rw [runner_echo_trace]
  simp [replayCommands]

/-- C6: the version gate fails open on the claim's own example. With metadata version
`2.0.0` and tool version `1.4.0` (no leading `v`, so both are invalid for package semver
and have the empty major version) the pull passes the gate, runs `git reset --hard` and
`git rebase` and exits with status 0. -/
theorem pull_unprefixed_versions_pass_gate :
    Major (Canonical "2.0.0".toList) = [] ∧ Major (Canonical "1.4.0".toList) = [] ∧
    (pull (pullWorld (some (sampleConfig "2.0.0")) "1.4.0" "feature-x\n") St.init).exitCode = 0 ∧
    (pull (pullWorld (some (sampleConfig "2.0.0")) "1.4.0" "feature-x\n") St.init).state.trace
      = fetchedTrace ++ ["git reset --hard abc123".toList,
          "git rebase origin/portal-aa-bb".toList, "git reset HEAD^^".toList,
          "rm portal-meta.yml".toList, "git push origin --delete portal-aa-bb".toList,
          "echo done".toList] := by
  decide!

/-- Where the version gate works: for a metadata version and a tool version that package
semver accepts (`vMAJOR[.MINOR[.PATCH[-PRERELEASE][+BUILD]]]`), when their major numbers
differ the pull exits with status 1 and has run no `git reset` and no `git rebase`; when
their major numbers are equal the gate lets the pull through, which on the recorded
branch runs the replay and the cleanup. -/
theorem pull_version_gate (w : World) (c : Config) (pm pt : Parsed)
    (hc : w.config = some c) (hm : parse c.version = some pm)
    (ht : parse w.version = some pt) :
    (pm.major ≠ pt.major →
      (pull w St.init).exitCode = 1 ∧
      ∀ cmd ∈ (pull w St.init).state.trace, isResetOrRebase cmd = false) ∧
    (pm.major = pt.major → ∀ ctx s, pullFetch w St.init = .ok ctx s →
      ctx.workingBranch = ctx.startingBranch →
      (pull w St.init).state.trace = s.trace ++ replayCommands ctx ++ ["echo done".toList]) := by
  have hspec := pullFetch_spec w
  refine ⟨fun hne => ?_, fun heq ctx s hf hb => ?_⟩
  · rw [pull_eq]
    cases hp : pullFetch w St.init with
    | halt e s =>
      rw [hp] at hspec
      obtain ⟨he, hs⟩ := hspec
      subst he
      exact ⟨rfl, hs⟩
    | ok ctx s =>
      rw [hp] at hspec
      obtain ⟨hs, c2, hc2, -, -, hpv, hcv⟩ := hspec
      rw [hc] at hc2
      cases hc2
      have hmaj : Major ctx.pusherVersion ≠ Major ctx.currentVersion := by
        rw [hpv, hcv, Major_Canonical hm, Major_Canonical ht]
        intro h
        exact hne (List.cons.inj h).2
      simp only [pullReplay_reject w ctx s hmaj]
      exact ⟨rfl, hs⟩
  · rw [hf] at hspec
    obtain ⟨-, c2, hc2, -, -, hpv, hcv⟩ := hspec
    rw [hc] at hc2
    cases hc2
    have hmaj : Major ctx.pusherVersion = Major ctx.currentVersion := by
      rw [hpv, hcv, Major_Canonical hm, Major_Canonical ht, heq]
    rw [pull_eq, hf]
    exact pullReplay_accept w ctx s hmaj hb

theorem pull_version_gate_witness :
    ((pull (pullWorld (some (sampleConfig "v2.0.0")) "v1.4.0" "feature-x\n") St.init).exitCode = 1 ∧
      ∀ cmd ∈ (pull (pullWorld (some (sampleConfig "v2.0.0")) "v1.4.0" "feature-x\n")
        St.init).state.trace, isResetOrRebase cmd = false) ∧
    (pull (pullWorld (some (sampleConfig "v1.0.0")) "v1.4.0" "feature-x\n") St.init).state.trace
      = fetchedTrace ++ replayCommands (fetchedCtx "feature-x" "v1.0.0")
          ++ ["echo done".toList] :=
  ⟨(pull_version_gate (pullWorld (some (sampleConfig "v2.0.0")) "v1.4.0" "feature-x\n")
      (sampleConfig "v2.0.0") ⟨"2".toList, "0".toList, "0".toList, [], [], []⟩
      ⟨"1".toList, "4".toList, "0".toList, [], [], []⟩ rfl (by decide) (by decide)).1 (by decide),
   (pull_version_gate (pullWorld (some (sampleConfig "v1.0.0")) "v1.4.0" "feature-x\n")
      (sampleConfig "v1.0.0") ⟨"1".toList, "0".toList, "0".toList, [], [], []⟩
      ⟨"1".toList, "4".toList, "0".toList, [], [], []⟩ rfl (by decide) (by decide)).2 rfl
      (fetchedCtx "feature-x" "v1.0.0") ⟨fetchedTrace, [], []⟩ (by decide!) rfl⟩

/-- C7, as stated, fails: started on `feature-y` with metadata of working branch
`feature-x`, but of version `v2.0.0` against the tool's `v1.4.0`, the pull is stopped by
the version gate, which stands before the branch check: it prints the four lines of the
version error, not the branch-mismatch line. -/
theorem pull_version_error_precedes_branch_error :
    pullFetch (pullWorld (some (sampleConfig "v2.0.0")) "v1.4.0" "feature-y\n") St.init
      = .ok (fetchedCtx "feature-y" "v2.0.0") ⟨fetchedTrace, [], []⟩ ∧
    (fetchedCtx "feature-y" "v2.0.0").startingBranch
      ≠ (fetchedCtx "feature-y" "v2.0.0").workingBranch ∧
    pull (pullWorld (some (sampleConfig "v2.0.0")) "v1.4.0" "feature-y\n") St.init
      = .halt (.exit 1) ⟨fetchedTrace, versionMismatchLines, []⟩ ∧
    branchMismatchLine "feature-y".toList "feature-x".toList ∉ versionMismatchLines := by
  decide!

/-- C7 (amended): a pull that reaches its validation on a starting branch other than the
working branch of the metadata exits with status 1 and has run no `git reset` and no
`git rebase`; when the major versions agree, so that the version gate lets it through,
it is the branch check that stops it: the line "Starting branch ... did not match target
branch ..." is printed and no further command is run. -/
theorem pull_branch_mismatch (w : World) (ctx : PullCtx) (s : St)
    (hf : pullFetch w St.init = .ok ctx s)
    (hne : ctx.startingBranch ≠ ctx.workingBranch) :
    (pull w St.init).exitCode = 1 ∧
    (∀ cmd ∈ (pull w St.init).state.trace, isResetOrRebase cmd = false) ∧
    (Major ctx.pusherVersion = Major ctx.currentVersion →
      pull w St.init = .halt (.exit 1)
        { s with out := s.out ++ [branchMismatchLine ctx.startingBranch ctx.workingBranch] }) := by
  have hspec := pullFetch_spec w
  rw [hf] at hspec
  obtain ⟨hs, -⟩ := hspec
  have key : Major ctx.pusherVersion = Major ctx.currentVersion →
      pull w St.init = .halt (.exit 1)
        { s with out := s.out ++ [branchMismatchLine ctx.startingBranch ctx.workingBranch] } := by
    intro hmaj
    rw [pull_eq, hf]
    exact pullReplay_mismatch w ctx s hmaj (fun h => hne h.symm)
  by_cases hmaj : Major ctx.pusherVersion = Major ctx.currentVersion
  · rw [key hmaj]
    exact ⟨rfl, hs, fun _ => rfl⟩
  · refine ⟨?_, ?_, fun h => absurd h hmaj⟩
    · rw [pull_eq, hf]
      simp only [pullReplay_reject w ctx s hmaj]
      rfl
    · rw [pull_eq, hf]
      simp only [pullReplay_reject w ctx s hmaj]
      exact hs

theorem pull_branch_mismatch_witness :
    (pull (pullWorld (some (sampleConfig "v1.0.0")) "v1.4.0" "feature-y\n") St.init).exitCode = 1 ∧
    (∀ cmd ∈ (pull (pullWorld (some (sampleConfig "v1.0.0")) "v1.4.0" "feature-y\n")
      St.init).state.trace, isResetOrRebase cmd = false) ∧
    pull (pullWorld (some (sampleConfig "v1.0.0")) "v1.4.0" "feature-y\n") St.init
      = .halt (.exit 1) ⟨fetchedTrace,
          ["Starting branch feature-y did not match target branch feature-x".toList], []⟩ :=
  have h := pull_branch_mismatch
    (pullWorld (some (sampleConfig "v1.0.0")) "v1.4.0" "feature-y\n")
    (fetchedCtx "feature-y" "v1.0.0") ⟨fetchedTrace, [], []⟩ (by decide!) (by decide)
  ⟨h.1, h.2.1, h.2.2 (by decide)⟩

/-! ### Failing commands -/

theorem getElem?_snoc {tr : List Str} {cmd c : Str} {k : Nat}
    (h : (tr ++ [cmd])[k]? = some c) : tr[k]? = some c ∨ (k = tr.length ∧ c = cmd) := by
  by_cases hk : k < tr.length
  · left
    rw [List.getElem?_append_left hk] at h
    exact h
  · right
    have hk2 : tr.length ≤ k := Nat.le_of_not_lt hk
    rw [List.getElem?_append_right hk2] at h
    by_cases h0 : k - tr.length = 0
    · rw [h0] at h
      simp at h
      exact ⟨by omega, h.symm⟩
    · obtain ⟨n, hn⟩ := Nat.exists_eq_succ_of_ne_zero h0
      rw [hn] at h
      simp at h

theorem failureLogic_sound (w : World) (isChecked : Str → Bool) :
    (failureLogic w isChecked).Sound where
  exit_ok := by
    intro s hs
    refine ⟨fun k cmd h1 h2 h3 => ?_, Or.inl rfl⟩
    have := hs k cmd h1 h2
    rw [this] at h3
    exact absurd h3 (by decide)
  snoc_unchecked := by
    intro tr cmd hs hu k c h1 h2
    rcases getElem?_snoc h1 with h | ⟨-, rfl⟩
    · exact hs k c h h2
    · exact hu
  snoc_ok := by
    intro tr cmd hs _ he k c h1 h2
    rcases getElem?_snoc h1 with h | ⟨rfl, rfl⟩
    · exact hs k c h h2
    · rw [he] at h2
      exact absurd h2 (by decide)
  snoc_err := by
    intro tr cmd out files hs _ _
    refine ⟨fun k c h1 h2 h3 => ?_, Or.inl rfl⟩
    rcases getElem?_snoc h1 with h | ⟨rfl, rfl⟩
    · have := hs k c h h2
      rw [this] at h3
      exact absurd h3 (by decide)
    · simp

theorem failureLogic_push (w : World) : PushSide (failureLogic w pushChecked) where
  upstream := rfl
  head := rfl
  porcelain := trivial
  statusSb := trivial
  duetAuthor := rfl
  duetCommitter := rfl
  together := rfl
  lsRemote := fun _ => trivial
  branchList := fun _ => trivial
  revList := fun _ _ => rfl
  revParse := fun _ => rfl
  panic_ok := by
    intro s hs
    refine ⟨fun k cmd h1 h2 h3 => ?_, Or.inr hs⟩
    have := hs k cmd h1 h2
    rw [this] at h3
    exact absurd h3 (by decide)
  addAll := rfl
  commitWip := rfl
  formatPatch := fun _ => rfl
  addMeta := rfl
  commitMeta := rfl
  published := fun _ _ _ _ _ _ => trivial

theorem failureLogic_fetch (w : World) : FetchSide (failureLogic w pullChecked) where
  upstream := rfl
  head := rfl
  porcelain := trivial
  statusSb := trivial
  duetAuthor := rfl
  duetCommitter := rfl
  together := rfl
  lsRemote := fun _ => trivial
  fetch := rfl
  pullR := rfl
  checkoutMeta := fun _ => rfl
  rmMeta := rfl

theorem failureLogic_replay (w : World) : ReplaySide (failureLogic w pullChecked) where
  resetHard := fun _ => rfl
  rebase := fun _ => rfl
  resetHead := rfl
  rmMeta := rfl
  pushDelete := fun _ => rfl
  echoDone := trivial

/-- From the triple of a whole workflow: a failed checked command is the last command,
and the exit status is 1. -/
theorem checked_failure_of_triple {w : World} {isChecked : Str → Bool} {m : M Unit}
    (h : Triple (failureLogic w isChecked).Pre m (fun _ => (failureLogic w isChecked).Pre)
      (failureLogic w isChecked).E)
    (k : Nat) (cmd : Str) (h1 : (m St.init).state.trace[k]? = some cmd)
    (h2 : (w.resp k cmd).err = true) (h3 : isChecked cmd = true) :
    k + 1 = (m St.init).state.trace.length ∧ (m St.init).exitCode = 1 := by
  have h0 := h St.init (fun k cmd hk => by simp [St.init] at hk)
  cases hm : m St.init with
  | ok a s =>
    rw [hm] at h0 h1
    have := h0 k cmd h1 h2
    rw [this] at h3
    exact absurd h3 (by decide)
  | halt e s =>
    rw [hm] at h0 h1
    obtain ⟨hlast, hor⟩ := h0
    refine ⟨hlast k cmd h1 h2 h3, ?_⟩
    rcases hor with rfl | hno
    · rfl
    · have := hno k cmd h1 h2
      rw [this] at h3
      exact absurd h3 (by decide)

/-- C8, as stated, fails: in this push `git add .`, the eleventh command, returns an
error, and the push goes on with the ten commands that follow and exits with status 0. -/
theorem push_goes_on_after_failed_add :
    ((pushWorld [failed]).resp 10 "git add .".toList).err = true ∧
    (push (pushWorld [failed]) St.init).state.trace[10]? = some "git add .".toList ∧
    (push (pushWorld [failed]) St.init).state.trace[11]?
      = some "git commit --allow-empty -m portal-wip".toList ∧
    (push (pushWorld [failed]) St.init).state.trace.length = 21 ∧
    (push (pushWorld [failed]) St.init).exitCode = 0 := by
  decide!

/-- A command whose error the source checks (a query that calls `commandFailure`, or a
command handed to `run`) is, when it fails, the last command of the workflow, which
exits with status 1. -/
theorem checked_failure_last (w : World) (k : Nat) (cmd : Str)
    (hfail : (w.resp k cmd).err = true) :
    ((push w St.init).state.trace[k]? = some cmd → pushChecked cmd = true →
      k + 1 = (push w St.init).state.trace.length ∧ (push w St.init).exitCode = 1) ∧
    ((pull w St.init).state.trace[k]? = some cmd → pullChecked cmd = true →
      k + 1 = (pull w St.init).state.trace.length ∧ (pull w St.init).exitCode = 1) :=
  ⟨fun h1 h3 => checked_failure_of_triple
      ((failureLogic_sound w pushChecked).push (failureLogic_push w)) k cmd h1 hfail h3,
   fun h1 h3 => checked_failure_of_triple
      ((failureLogic_sound w pullChecked).pull (failureLogic_fetch w) (failureLogic_replay w))
      k cmd h1 hfail h3⟩

/-! ### Discarded errors -/

theorem clearErr_out (d : Str → Bool) (w : World) (k : Nat) (cmd : Str) :
    ((clearErr d w).resp k cmd).out = (w.resp k cmd).out := by
  simp only [clearErr]
  split_ifs <;> rfl

theorem clearErr_resp (d : Str → Bool) (w : World) (k : Nat) (cmd : Str)
    (h : d cmd = false) : (clearErr d w).resp k cmd = w.resp k cmd := by
  simp [clearErr, h]

theorem execute_clearErr (d : Str → Bool) (w : World) (cmd : Str) (h : d cmd = false) :
    execute (clearErr d w) cmd = execute w cmd := by
  funext s
  simp [execute, clearErr_resp d w _ cmd h]

/-- A command whose result is dropped runs the same in both worlds. -/
theorem execute_clearErr_drop {β : Type} (d : Str → Bool) (w : World) (cmd : Str) (k : M β) :
    (execute (clearErr d w) cmd >>= fun _ => k) = (execute w cmd >>= fun _ => k) := by
  funext s
  simp [bind, M.bind, execute]

/-- A command of which the output alone is read runs the same in both worlds. -/
theorem execute_clearErr_out {β : Type} (d : Str → Bool) (w : World) (cmd : Str)
    (f : Str → M β) :
    (execute (clearErr d w) cmd >>= fun r => f r.out) = (execute w cmd >>= fun r => f r.out) := by
  funext s
  simp [bind, M.bind, execute, clearErr_out]

theorem currentBranchRemotelyUntracked_clearErr {d : Str → Bool} (h : ReadsKept d) (w : World) :
    currentBranchRemotelyUntracked (clearErr d w) = currentBranchRemotelyUntracked w := by
  unfold currentBranchRemotelyUntracked
  rw [execute_clearErr d w _ h.upstream]

theorem getCurrentBranch_clearErr (d : Str → Bool) (w : World) :
    getCurrentBranch (clearErr d w) = getCurrentBranch w :=
  execute_clearErr_out d w _ (fun o => pure (TrimSuffix o "\n".toList))

theorem getRemoteTrackingBranch_clearErr (d : Str → Bool) (w : World) :
    getRemoteTrackingBranch (clearErr d w) = getRemoteTrackingBranch w :=
  execute_clearErr_out d w _ (fun o => pure (TrimSuffix o "\n".toList))

theorem dirtyIndex_clearErr {d : Str → Bool} (h : ReadsKept d) (w : World) :
    dirtyIndex (clearErr d w) = dirtyIndex w := by
  unfold dirtyIndex
  simp only [execute_clearErr d w _ h.porcelain]

theorem unpublishedWork_clearErr {d : Str → Bool} (h : ReadsKept d) (w : World) :
    unpublishedWork (clearErr d w) = unpublishedWork w := by
  unfold unpublishedWork
  simp only [execute_clearErr d w _ h.statusSb]

theorem notClean_clearErr {d : Str → Bool} (h : ReadsKept d) (w : World) :
    notClean (clearErr d w) = notClean w := by
  unfold notClean
  rw [dirtyIndex_clearErr h, unpublishedWork_clearErr h]

theorem nothingToPush_clearErr {d : Str → Bool} (h : ReadsKept d) (w : World) :
    nothingToPush (clearErr d w) = nothingToPush w := by
  unfold nothingToPush
  rw [dirtyIndex_clearErr h, unpublishedWork_clearErr h]

theorem gitDuet_clearErr {d : Str → Bool} (h : ReadsKept d) (w : World) :
    gitDuet (clearErr d w) = gitDuet w := by
  unfold gitDuet
  rw [execute_clearErr d w _ h.duetAuthor, execute_clearErr d w _ h.duetCommitter]

theorem gitTogether_clearErr {d : Str → Bool} (h : ReadsKept d) (w : World) :
    gitTogether (clearErr d w) = gitTogether w := by
  unfold gitTogether
  rw [execute_clearErr d w _ h.together]

theorem strategyOrExit_clearErr {d : Str → Bool} (h : ReadsKept d) (w : World) :
    strategyOrExit (clearErr d w) = strategyOrExit w := by
  unfold strategyOrExit branchNameStrategy
  rw [gitDuet_clearErr h, gitTogether_clearErr h]

theorem remoteBranchExists_clearErr {d : Str → Bool} (h : ReadsKept d) (w : World) (b : Str) :
    remoteBranchExists (clearErr d w) b = remoteBranchExists w b := by
  unfold remoteBranchExists
  simp only [execute_clearErr d w _ (h.lsRemote b)]

theorem localBranchExists_clearErr (d : Str → Bool)
    (h : ∀ b, d ("git branch --list ".toList ++ b) = false) (w : World) (b : Str) :
    localBranchExists (clearErr d w) b = localBranchExists w b := by
  unfold localBranchExists
  simp only [execute_clearErr d w _ (h b)]

theorem getBoundarySha_clearErr (d : Str → Bool) (w : World) (r c : Str) :
    getBoundarySha (clearErr d w) r c = getBoundarySha w r c := by
  have inner : (execute (clearErr d w) ("git rev-parse ".toList ++ c) >>= fun r2 =>
      (pure (TrimSuffix r2.out "\n".toList) : M Str))
      = (execute w ("git rev-parse ".toList ++ c) >>= fun r2 =>
      (pure (TrimSuffix r2.out "\n".toList) : M Str)) :=
    execute_clearErr_out d w _ (fun o => pure (TrimSuffix o "\n".toList))
  unfold getBoundarySha
  rw [inner]
  exact execute_clearErr_out d w _ (fun o =>
    if o.length > 0 then
      match parseRefBoundary o with
      | some sha => pure sha
      | none => goPanic
    else
      execute w ("git rev-parse ".toList ++ c) >>= fun r2 =>
        (pure (TrimSuffix r2.out "\n".toList) : M Str))

theorem savePatch_clearErr (d : Str → Bool) (w : World) (r t : Str) :
    savePatch (clearErr d w) r t = savePatch w r t :=
  execute_clearErr_out d w _ (fun o => writeFile (.patch (buildPatchFileName t) o))

theorem getConfiguration_clearErr (d : Str → Bool) (w : World) :
    getConfiguration (clearErr d w) = getConfiguration w := rfl

theorem run_clearErr {d : Str → Bool} (w : World) (verbose : Bool) :
    ∀ commands : List Str, (∀ c ∈ commands, d c = false) →
      run (clearErr d w) commands verbose = run w commands verbose
  | [], _ => rfl
  | command :: rest, h => by
    unfold run
    rw [execute_clearErr d w _ (h command (by simp)),
      run_clearErr w verbose rest (fun c hc => h c (by simp [hc]))]

theorem runner_clearErr {d : Str → Bool} (w : World) (verbose : Bool) (commands : List Str)
    (msg : Str) (h : ∀ c ∈ commands, d c = false) :
    runner (clearErr d w) commands verbose msg = runner w commands verbose msg := by
  unfold runner
  rw [run_clearErr w verbose commands h]

theorem pushDirect_reads : ReadsKept pushDirect where
  upstream := rfl
  porcelain := rfl
  statusSb := rfl
  duetAuthor := rfl
  duetCommitter := rfl
  together := rfl
  lsRemote := fun _ => rfl

theorem pullDirect_reads : ReadsKept pullDirect where
  upstream := rfl
  porcelain := rfl
  statusSb := rfl
  duetAuthor := rfl
  duetCommitter := rfl
  together := rfl
  lsRemote := fun _ => rfl

theorem pushCommands_not_direct (now pb cb rb : Str) :
    ∀ c ∈ pushCommands now pb cb rb, pushDirect c = false := by
  intro c hc
  simp only [pushCommands, List.mem_cons, List.mem_singleton, List.not_mem_nil, or_false] at hc
  rcases hc with rfl | rfl | rfl | rfl | rfl | rfl <;> rfl

/-- The push runs the same whether or not the commands of which it drops the error
fail. -/
theorem push_clearErr (w : World) : push (clearErr pushDirect w) = push w := by
  unfold push
  simp only [nothingToPush_clearErr pushDirect_reads,
    currentBranchRemotelyUntracked_clearErr pushDirect_reads,
    strategyOrExit_clearErr pushDirect_reads,
    remoteBranchExists_clearErr pushDirect_reads,
    localBranchExists_clearErr pushDirect (fun _ => rfl),
    getCurrentBranch_clearErr, getRemoteTrackingBranch_clearErr, getBoundarySha_clearErr,
    savePatch_clearErr, execute_clearErr_drop,
    runner_clearErr w _ _ _ (pushCommands_not_direct _ _ _ _)]
  rfl

theorem pullFetch_clearErr (w : World) : pullFetch (clearErr pullDirect w) = pullFetch w := by
  unfold pullFetch
  simp only [notClean_clearErr pullDirect_reads,
    currentBranchRemotelyUntracked_clearErr pullDirect_reads,
    strategyOrExit_clearErr pullDirect_reads,
    remoteBranchExists_clearErr pullDirect_reads,
    getCurrentBranch_clearErr, getConfiguration_clearErr, execute_clearErr_drop]
  rfl

theorem echoDone_not_direct : ∀ c ∈ ["echo done".toList], pullDirect c = false := by
  intro c hc
  rw [List.mem_singleton.1 hc]
  rfl

theorem pullReplay_clearErr (w : World) (c : PullCtx) :
    pullReplay (clearErr pullDirect w) c = pullReplay w c := by
  unfold pullReplay
  simp only [execute_clearErr_drop, runner_clearErr w _ _ _ echoDone_not_direct]
  rfl

/-- The pull runs the same whether or not the commands of which it drops the error
fail. -/
theorem pull_clearErr (w : World) : pull (clearErr pullDirect w) = pull w := by
  unfold pull
  rw [pullFetch_clearErr]
  simp only [pullReplay_clearErr]

/-! ### The order of the commands -/

section AtRules

variable {w : World} {E : Halt → St → Prop}

theorem Triple.exists_pre {α ι : Type} {P : ι → St → Prop} {m : M α} {Q : α → St → Prop}
    (h : ∀ i, Triple (P i) m Q E) : Triple (fun s => ∃ i, P i s) m Q E :=
  fun s hs => hs.elim (fun i hi => h i s hi)

theorem at_exec (tr : List Str) (cmd : Str) :
    Triple (At tr) (execute w cmd) (fun _ => At (tr ++ [cmd])) E := by
  intro s hs
  show s.trace ++ [cmd] = tr ++ [cmd]
  rw [show s.trace = tr from hs]

theorem at_println (tr : List Str) (line : Str) :
    Triple (At tr) (println line) (fun _ => At tr) E :=
  fun _ hs => hs

theorem at_writeFile (tr : List Str) (f : FileWrite) :
    Triple (At tr) (writeFile f) (fun _ => At tr) E :=
  fun _ hs => hs

theorem at_pure {α : Type} (tr : List Str) (a : α) :
    Triple (At tr) (pure a : M α) (fun _ => At tr) E :=
  fun _ hs => hs

theorem at_printExit {α : Type} (tr : List Str) (line : Str) (Q : α → St → Prop)
    (hE : ∀ h s, At tr s → E h s) :
    Triple (At tr) (do println line; osExit 1 : M α) Q E :=
  fun _ hs => hE _ _ hs

theorem at_whenExit (tr : List Str) (cond : Bool) (body : M Unit)
    (h : Triple (At tr) body (fun _ _ => False) E) :
    Triple (At tr) (whenM cond body) (fun _ => At tr) E := by
  unfold whenM
  cases cond with
  | true =>
    intro s hs
    have := h s hs
    simp only [if_true]
    cases hb : body s with
    | ok a s1 => rw [hb] at this; exact this.elim
    | halt h s1 => rw [hb] at this; exact this
  | false => exact fun _ hs => hs

theorem at_whenPrint (tr : List Str) (cond : Bool) (line : Str) :
    Triple (At tr) (whenM cond (println line)) (fun _ => At tr) E := by
  unfold whenM
  cases cond with
  | true => exact fun _ hs => hs
  | false => exact fun _ hs => hs

/-- A command whose error is fatal, at a known point of the trace. -/
theorem at_checked {β : Type} (tr : List Str) (cmd : Str) (k : Resp → M β)
    (R : β → St → Prop) (hE : ∀ h s, At (tr ++ [cmd]) s → E h s)
    (hk : ∀ r, Triple (At (tr ++ [cmd])) (k r) R E) :
    Triple (At tr) (execute w cmd >>= fun r => whenM r.err (commandFailure cmd) >>=
      fun _ => k r) R E := by
  intro s hs
  have hs2 : s.trace ++ [cmd] = tr ++ [cmd] := by rw [show s.trace = tr from hs]
  simp only [bind, M.bind, execute, whenM]
  cases he : (w.resp s.trace.length cmd).err with
  | true =>
    simp only [if_true, commandFailure, bind, M.bind, println, osExit]
    exact hE _ _ hs2
  | false =>
    simp only [Bool.false_eq_true, if_false, pure, M.pure]
    exact hk _ _ hs2

theorem at_currentBranchRemotelyUntracked (tr : List Str) :
    Triple (At tr) (currentBranchRemotelyUntracked w) (fun _ => At (tr ++ [cmdUpstream])) E :=
  Triple.bind (at_exec tr _) (fun _ => at_pure _ _)

theorem at_getCurrentBranch (tr : List Str) :
    Triple (At tr) (getCurrentBranch w)
      (fun _ => At (tr ++ ["git rev-parse --abbrev-ref HEAD".toList])) E :=
  Triple.bind (at_exec tr _) (fun _ => at_pure _ _)

theorem at_getRemoteTrackingBranch (tr : List Str) :
    Triple (At tr) (getRemoteTrackingBranch w) (fun _ => At (tr ++ [cmdUpstream])) E :=
  Triple.bind (at_exec tr _) (fun _ => at_pure _ _)

theorem at_dirtyIndex (tr : List Str)
    (hE : ∀ h s, At (tr ++ ["git status --porcelain=v1".toList]) s → E h s) :
    Triple (At tr) (dirtyIndex w)
      (fun _ => At (tr ++ ["git status --porcelain=v1".toList])) E :=
  at_checked tr _ _ _ hE (fun _ => at_pure _ _)

theorem at_unpublishedWork (tr : List Str)
    (hE : ∀ h s, At (tr ++ ["git status -sb".toList]) s → E h s) :
    Triple (At tr) (unpublishedWork w) (fun _ => At (tr ++ ["git status -sb".toList])) E :=
  at_checked tr _ _ _ hE (fun _ => at_pure _ _)

theorem at_notClean (tr : List Str)
    (hE : ∀ clean h s, At (tr ++ statusQueries clean) s → E h s) :
    Triple (At tr) (notClean w) (fun _ s => ∃ clean, At (tr ++ statusQueries clean) s) E := by
  refine Triple.bind (at_dirtyIndex tr (hE false)) (fun dirty => ?_)
  refine Triple.ite (fun _ => ?_) (fun _ => ?_)
  · exact fun s hs => ⟨false, hs⟩
  · refine (at_unpublishedWork _ (fun h s hs => hE true h s ?_)).post (fun _ s hs => ⟨true, ?_⟩)
    · simpa [At, statusQueries] using hs
    · simpa [At, statusQueries] using hs

theorem at_nothingToPush (tr : List Str)
    (hE : ∀ clean h s, At (tr ++ statusQueries clean) s → E h s) :
    Triple (At tr) (nothingToPush w)
      (fun _ s => ∃ clean, At (tr ++ statusQueries clean) s) E := by
  refine Triple.bind (at_dirtyIndex tr (hE false)) (fun dirty => ?_)
  refine Triple.ite (fun _ => ?_) (fun _ => ?_)
  · refine Triple.bind (at_unpublishedWork _ (fun h s hs => hE true h s ?_)) (fun _ => ?_)
    · simpa [At, statusQueries] using hs
    · exact fun s hs => ⟨true, by simpa [At, statusQueries] using hs⟩
  · exact fun s hs => ⟨false, hs⟩

theorem at_strategyOrExit (tr : List Str) (hE : ∀ h s, At (tr ++ pairQueries) s → E h s) :
    Triple (At tr) (strategyOrExit w) (fun _ => At (tr ++ pairQueries)) E := by
  have h1 : Triple (At tr) (branchNameStrategy w) (fun _ => At (tr ++ pairQueries)) E := by
    refine Triple.bind (Triple.bind (at_exec tr _) (fun _ => Triple.bind (at_exec _ _)
      (fun _ => Triple.ite (fun _ => at_pure _ _) (fun _ => at_pure _ _)))) (fun _ => ?_)
    refine Triple.bind (Triple.bind (at_exec _ _)
      (fun _ => Triple.ite (fun _ => at_pure _ _) (fun _ => at_pure _ _))) (fun _ => ?_)
    exact fun s hs => by simpa [At, pairQueries] using hs
  refine Triple.bind h1 (fun strategy => ?_)
  cases strategy with
  | error err => exact at_printExit _ _ _ hE
  | ok branchStrategy => exact at_pure _ _

theorem at_localBranchExists (tr : List Str) (b : Str)
    (hE : ∀ h s, At (tr ++ ["git branch --list ".toList ++ b]) s → E h s) :
    Triple (At tr) (localBranchExists w b)
      (fun _ => At (tr ++ ["git branch --list ".toList ++ b])) E :=
  at_checked tr _ _ _ hE (fun _ => at_pure _ _)

theorem at_remoteBranchExists (tr : List Str) (b : Str)
    (hE : ∀ h s, At (tr ++ ["git ls-remote --heads origin ".toList ++ b]) s → E h s) :
    Triple (At tr) (remoteBranchExists w b)
      (fun _ => At (tr ++ ["git ls-remote --heads origin ".toList ++ b])) E :=
  at_checked tr _ _ _ hE (fun _ => at_pure _ _)

theorem at_getConfiguration (tr : List Str) (hE : ∀ h s, At tr s → E h s) :
    Triple (At tr) (getConfiguration w) (fun _ => At tr) E := by
  unfold getConfiguration
  cases w.config with
  | none => exact fun s hs => hE _ _ hs
  | some c => exact at_pure _ _

theorem at_getBoundarySha (tr : List Str) (r c : Str)
    (hE : ∀ h s, At (tr ++ boundaryQueries true r c) s → E h s) :
    Triple (At tr) (getBoundarySha w r c)
      (fun _ s => ∃ diverged, At (tr ++ boundaryQueries diverged r c) s) E := by
  refine Triple.bind (at_exec tr _) (fun out => ?_)
  refine Triple.ite (fun _ => ?_) (fun _ => ?_)
  · cases parseRefBoundary out.out with
    | none => exact fun s hs => hE _ s (by simpa [At, boundaryQueries] using hs)
    | some sha => exact fun s hs => ⟨true, by simpa [At, boundaryQueries] using hs⟩
  · refine Triple.bind (at_exec _ _) (fun _ => ?_)
    exact fun s hs => ⟨false, by simpa [At, boundaryQueries] using hs⟩

theorem at_savePatch (tr : List Str) (r t : Str) :
    Triple (At tr) (savePatch w r t)
      (fun _ => At (tr ++ ["git format-patch ".toList ++ r ++ " --stdout".toList])) E :=
  Triple.bind (at_exec tr _) (fun _ => at_writeFile _ _)

theorem at_run (verbose : Bool) : ∀ (commands : List Str) (tr : List Str),
    (∀ k h s, At (tr ++ commands.take (k + 1)) s → E h s) →
    Triple (At tr) (run w commands verbose) (fun _ => At (tr ++ commands)) E
  | [], tr, _ => fun s hs => by simpa [At] using hs
  | command :: rest, tr, hE => by
    unfold run
    refine Triple.bind (at_whenPrint tr _ _) (fun _ => ?_)
    refine at_checked tr _ _ _ (fun h s hs => hE 0 h s (by simpa using hs)) (fun r => ?_)
    refine Triple.bind (at_whenPrint _ _ _) (fun _ => ?_)
    refine (at_run verbose rest (tr ++ [command]) (fun k h s hs => hE (k + 1) h s ?_)).post
      (fun _ s hs => ?_)
    · simpa [At] using hs
    · simpa [At] using hs

theorem at_runner (verbose : Bool) (commands : List Str) (msg : Str) (tr : List Str)
    (hE : ∀ k h s, At (tr ++ commands.take (k + 1)) s → E h s) :
    Triple (At tr) (runner w commands verbose msg) (fun _ => At (tr ++ commands)) E :=
  Triple.bind (at_run verbose commands tr hE) (fun _ => at_println _ _)

end AtRules

theorem inPull {tr : List Str} (clean : Bool) (pb sha : Str)
    (h : tr <+: pullSequence clean pb sha) (e : Halt) (s : St) (hs : At tr s) :
    (fun (_ : Halt) (s : St) => InPullSequence s.trace) e s :=
  ⟨clean, pb, sha, by rw [show s.trace = tr from hs]; exact h⟩

theorem pullFetch_order (w : World) :
    Triple (At []) (pullFetch w)
      (fun c s => ∃ clean, At (fetchSequence clean c.portalBranch) s)
      (fun _ s => InPullSequence s.trace) := by
  unfold pullFetch
  refine Triple.bind (at_currentBranchRemotelyUntracked _) (fun untracked => ?_)
  refine Triple.bind (at_whenExit _ _ _ (at_printExit _ _ _
    (inPull false [] [] (by simp [pullSequence])))) (fun _ => ?_)
  refine Triple.bind (at_getCurrentBranch _) (fun startingBranch => ?_)
  refine Triple.bind (at_notClean _ (fun clean => inPull clean [] []
    (by cases clean <;> simp [pullSequence, statusQueries]))) (fun unclean => ?_)
  refine Triple.exists_pre (fun clean => ?_)
  refine Triple.bind (at_whenExit _ _ _ (at_printExit _ _ _
    (inPull clean [] [] (by cases clean <;> simp [pullSequence, statusQueries]))))
    (fun _ => ?_)
  refine Triple.bind (at_strategyOrExit _ (inPull clean [] []
    (by cases clean <;> simp [pullSequence, statusQueries, pairQueries])))
    (fun branchStrategy => ?_)
  refine Triple.bind (at_remoteBranchExists _ _ (inPull clean (getPortalBranch branchStrategy) []
    (by cases clean <;> simp [pullSequence, statusQueries, pairQueries])))
    (fun remoteExists => ?_)
  refine Triple.bind (at_whenExit _ _ _ (at_printExit _ _ _
    (inPull clean (getPortalBranch branchStrategy) []
      (by cases clean <;> simp [pullSequence, statusQueries, pairQueries]))))
    (fun _ => ?_)
  refine Triple.bind (at_exec _ _) (fun _ => ?_)
  refine Triple.bind (at_exec _ _) (fun _ => ?_)
  refine Triple.bind (at_exec _ _) (fun _ => ?_)
  refine Triple.bind (at_getConfiguration _ (inPull clean (getPortalBranch branchStrategy) []
    (by cases clean <;> simp [pullSequence, statusQueries, pairQueries])))
    (fun config => ?_)
  refine Triple.bind (at_exec _ _) (fun _ => ?_)
  exact fun s hs => ⟨clean, by
    cases clean <;> simpa [At, fetchSequence, statusQueries, pairQueries] using hs⟩

theorem pullSequence_eq_fetch (clean : Bool) (pb sha : Str) :
    pullSequence clean pb sha = fetchSequence clean pb ++
      (["git reset --hard ".toList ++ sha, "git rebase origin/".toList ++ pb,
        "git reset HEAD^^".toList, "rm portal-meta.yml".toList,
        "git push origin --delete ".toList ++ pb] ++ ["echo done".toList]) := by
  cases clean <;> simp [pullSequence, fetchSequence, statusQueries, pairQueries]

theorem pullReplay_order (w : World) (c : PullCtx) (clean : Bool) :
    Triple (At (fetchSequence clean c.portalBranch)) (pullReplay w c)
      (fun _ s => InPullSequence s.trace) (fun _ s => InPullSequence s.trace) := by
  unfold pullReplay
  refine Triple.bind (at_whenExit _ _ _ ?_) (fun _ => ?_)
  · refine Triple.bind (at_println _ _) (fun _ => Triple.bind (at_println _ _) (fun _ =>
      Triple.bind (at_println _ _) (fun _ => at_printExit _ _ _ ?_)))
    exact inPull clean c.portalBranch c.sha
      (by rw [pullSequence_eq_fetch]; exact List.prefix_append _ _)
  refine Triple.bind (at_whenExit _ _ _ (at_printExit _ _ _
    (inPull clean c.portalBranch c.sha
      (by rw [pullSequence_eq_fetch]; exact List.prefix_append _ _)))) (fun _ => ?_)
  refine Triple.bind (at_exec _ _) (fun _ => ?_)
  refine Triple.bind (at_exec _ _) (fun _ => ?_)
  refine Triple.bind (at_exec _ _) (fun _ => ?_)
  refine Triple.bind (at_exec _ _) (fun _ => ?_)
  refine Triple.bind (at_exec _ _) (fun _ => ?_)
  refine (at_runner _ _ _ _ (fun k => inPull clean c.portalBranch c.sha ?_)).post
    (fun _ s hs => inPull clean c.portalBranch c.sha ?_ .panic s hs)
  · rw [pullSequence_eq_fetch]
    cases k <;> simp
  · rw [pullSequence_eq_fetch]
    simp

/-- Every run of the pull issues its commands in the order of the source: the commands
run are an initial segment of the declared sequence. -/
theorem pull_in_sequence (w : World) : InPullSequence (pull w St.init).state.trace := by
  have h : Triple (At []) (pull w) (fun _ s => InPullSequence s.trace)
      (fun _ s => InPullSequence s.trace) :=
    Triple.bind (pullFetch_order w) (fun c => Triple.exists_pre (fun clean =>
      pullReplay_order w c clean))
  have h0 := h St.init rfl
  cases hp : pull w St.init with
  | ok a s => rw [hp] at h0; exact h0
  | halt e s => rw [hp] at h0; exact h0

theorem inPush {now : Str} {tr : List Str} (clean diverged : Bool) (pb cb rb : Str)
    (h : tr <+: pushSequence clean diverged now pb cb rb) (e : Halt) (s : St) (hs : At tr s) :
    (fun (_ : Halt) (s : St) => InPushSequence now s.trace) e s :=
  ⟨clean, diverged, pb, cb, rb, by rw [show s.trace = tr from hs]; exact h⟩

theorem prefix_take_of_eq {tr cmds full : List Str} (k : Nat) (h : tr ++ cmds = full) :
    tr ++ cmds.take k <+: full :=
  h ▸ (List.prefix_append_right_inj tr).2 ( List.take_prefix k cmds)

theorem prefix_of_eq {tr full : List Str} (h : tr = full) : tr <+: full :=
  h ▸ List.prefix_refl tr

theorem push_order (w : World) :
    Triple (At []) (push w) (fun _ s => InPushSequence w.now s.trace)
      (fun _ s => InPushSequence w.now s.trace) := by
  unfold push
  refine Triple.bind (at_nothingToPush _ (fun clean => inPush clean true [] [] []
    (by cases clean <;> simp [pushSequence, statusQueries]))) (fun nothing => ?_)
  refine Triple.exists_pre (fun clean => ?_)
  refine Triple.bind (at_whenExit _ _ _ (at_printExit _ _ _
    (inPush clean true [] [] [] (by cases clean <;> simp [pushSequence, statusQueries]))))
    (fun _ => ?_)
  refine Triple.bind (at_currentBranchRemotelyUntracked _) (fun untracked => ?_)
  refine Triple.bind (at_whenExit _ _ _ (at_printExit _ _ _
    (inPush clean true [] [] [] (by cases clean <;> simp [pushSequence, statusQueries]))))
    (fun _ => ?_)
  refine Triple.bind (at_strategyOrExit _ (inPush clean true [] [] []
    (by cases clean <;> simp [pushSequence, statusQueries, pairQueries])))
    (fun branchStrategy => ?_)
  refine Triple.bind (at_localBranchExists _ _
    (inPush clean true (getPortalBranch branchStrategy) [] []
      (by cases clean <;> simp [pushSequence, statusQueries, pairQueries])))
    (fun localExists => ?_)
  refine Triple.bind (at_whenExit _ _ _ (at_printExit _ _ _
    (inPush clean true (getPortalBranch branchStrategy) [] []
      (by cases clean <;> simp [pushSequence, statusQueries, pairQueries]))))
    (fun _ => ?_)
  refine Triple.bind (at_remoteBranchExists _ _
    (inPush clean true (getPortalBranch branchStrategy) [] []
      (by cases clean <;> simp [pushSequence, statusQueries, pairQueries])))
    (fun remoteExists => ?_)
  refine Triple.bind (at_whenExit _ _ _ (at_printExit _ _ _
    (inPush clean true (getPortalBranch branchStrategy) [] []
      (by cases clean <;> simp [pushSequence, statusQueries, pairQueries]))))
    (fun _ => ?_)
  refine Triple.bind (at_getCurrentBranch _) (fun currentBranch => ?_)
  refine Triple.bind (at_getRemoteTrackingBranch _) (fun remoteTrackingBranch => ?_)
  refine Triple.bind (at_getBoundarySha _ _ _
    (inPush clean true (getPortalBranch branchStrategy) currentBranch remoteTrackingBranch
      (by cases clean <;> simp [pushSequence, statusQueries, pairQueries, boundaryQueries])))
    (fun sha => ?_)
  refine Triple.exists_pre (fun diverged => ?_)
  refine Triple.bind (at_exec _ _) (fun _ => ?_)
  refine Triple.bind (at_exec _ _) (fun _ => ?_)
  refine Triple.bind (at_savePatch _ _ _) (fun _ => ?_)
  refine Triple.bind (at_writeFile _ _) (fun _ => ?_)
  refine Triple.bind (at_exec _ _) (fun _ => ?_)
  refine Triple.bind (at_exec _ _) (fun _ => ?_)
  refine (at_runner _ _ _ _ (fun k =>
      inPush clean diverged (getPortalBranch branchStrategy) currentBranch remoteTrackingBranch
        (prefix_take_of_eq _ ?_))).post
    (fun _ s hs =>
      inPush clean diverged (getPortalBranch branchStrategy) currentBranch remoteTrackingBranch
        (prefix_of_eq ?_) .panic s hs)
  · cases clean <;> cases diverged <;>
      simp [pushSequence, pushCommands, statusQueries, pairQueries, boundaryQueries]
  · cases clean <;> cases diverged <;>
      simp [pushSequence, pushCommands, statusQueries, pairQueries, boundaryQueries]

/-- Every run of the push issues its commands in the order of the source: the commands
run are an initial segment of the declared sequence. -/
theorem push_in_sequence (w : World) : InPushSequence w.now (push w St.init).state.trace := by
  have h0 := push_order w St.init rfl
  cases hp : push w St.init with
  | ok a s => rw [hp] at h0; exact h0
  | halt e s => rw [hp] at h0; exact h0

/-- The commands that the two actions issue with `_, _ = execute(...)` are among those of
which `pushDirect` and `pullDirect` clear the error, and the commands handed to `run` are
among those that `pushChecked` and `pullChecked` recognise. -/
theorem recognised_commands :
    (pushDirect "git add .".toList = true ∧
      pushDirect "git commit --allow-empty -m portal-wip".toList = true ∧
      pushDirect "git add portal-meta.yml".toList = true ∧
      pushDirect "git commit --allow-empty -m portal-meta".toList = true) ∧
    (pullDirect "git fetch".toList = true ∧
      pullDirect "git pull -r".toList = true ∧
      (∀ b, pullDirect
        ("git checkout origin/".toList ++ b ++ " -- portal-meta.yml".toList) = true) ∧
      pullDirect "rm portal-meta.yml".toList = true ∧
      (∀ sha, pullDirect ("git reset --hard ".toList ++ sha) = true) ∧
      (∀ b, pullDirect ("git rebase origin/".toList ++ b) = true) ∧
      pullDirect "git reset HEAD^^".toList = true ∧
      (∀ b, pullDirect ("git push origin --delete ".toList ++ b) = true)) ∧
    (∀ now pb cb rb, ∀ c ∈ pushCommands now pb cb rb, pushChecked c = true) ∧
    pullChecked "echo done".toList = true := by
  refine ⟨⟨rfl, rfl, rfl, rfl⟩, ⟨rfl, rfl, fun _ => rfl, rfl, fun _ => rfl, fun _ => rfl, rfl,
    fun _ => rfl⟩, ?_, rfl⟩
  intro now pb cb rb c hc
  simp only [pushCommands, List.mem_cons, List.mem_singleton, List.not_mem_nil, or_false] at hc
  rcases hc with rfl | rfl | rfl | rfl | rfl | rfl <;> rfl

/-- C8 (amended): in both workflows, for every assignment of outputs and of success or
failure to the external commands: (1) the commands run are an initial segment of the
declared sequence of the workflow; (2) a command whose error the source checks (the
queries `git status`, `git branch --list`, `git ls-remote`, which call `commandFailure`,
and the commands handed to `run`) is, when it fails, the last command run, and the
workflow exits with status 1; (3) the error of a command issued directly (`git add .`,
`git commit --allow-empty`, `git fetch`, `git pull -r`, `git reset --hard <sha>`,
`git rebase`, ...) is dropped: the whole run is the one of the world in which these
commands succeed with the same output. -/
theorem workflow_commands (w : World) :
    (InPushSequence w.now (push w St.init).state.trace ∧
      InPullSequence (pull w St.init).state.trace) ∧
    (∀ k cmd, (w.resp k cmd).err = true →
      ((push w St.init).state.trace[k]? = some cmd → pushChecked cmd = true →
        k + 1 = (push w St.init).state.trace.length ∧ (push w St.init).exitCode = 1) ∧
      ((pull w St.init).state.trace[k]? = some cmd → pullChecked cmd = true →
        k + 1 = (pull w St.init).state.trace.length ∧ (pull w St.init).exitCode = 1)) ∧
    (push (clearErr pushDirect w) St.init = push w St.init ∧
      pull (clearErr pullDirect w) St.init = pull w St.init) :=
  ⟨⟨push_in_sequence w, pull_in_sequence w⟩,
   fun k cmd hfail => checked_failure_last w k cmd hfail,
   ⟨by rw [push_clearErr], by rw [pull_clearErr]⟩⟩

theorem workflow_commands_witness :
    (17 + 1 = (push (pushWorld [okOut "", okOut "", okOut "", okOut "", okOut "", okOut "",
        okOut "", failed]) St.init).state.trace.length ∧
      (push (pushWorld [okOut "", okOut "", okOut "", okOut "", okOut "", okOut "",
        okOut "", failed]) St.init).exitCode = 1) ∧
    (7 + 1 = (pull pullWorldRemoteDown St.init).state.trace.length ∧
      (pull pullWorldRemoteDown St.init).exitCode = 1) ∧
    InPushSequence (pushWorld [failed]).now (push (pushWorld [failed]) St.init).state.trace ∧
    push (clearErr pushDirect (pushWorld [failed])) St.init
      = push (pushWorld [failed]) St.init :=
  ⟨((workflow_commands
      (pushWorld [okOut "", okOut "", okOut "", okOut "", okOut "", okOut "", okOut "",
        failed])).2.1
      17 "git push origin portal-aa-bb --progress".toList (by decide)).1
      (by decide!) (by decide),
   ((workflow_commands pullWorldRemoteDown).2.1 7
      "git ls-remote --heads origin portal-aa-bb".toList (by decide)).2
      (by decide!) (by decide),
   (workflow_commands (pushWorld [failed])).1.1,
   (workflow_commands (pushWorld [failed])).2.2.1⟩

end Portal
